import Mathlib

/-!
Verification of the GraphRAG indexing pipeline (`graphrag_api`, `graphrag_indexer`,
`graphrag_service`) against its natural-language specification.

The Python sources are shallowly embedded: text is `List Char` (one entry per
Unicode code point, matching Python's `str` indexing), dictionaries are
association lists preserving insertion order (matching CPython dict semantics),
and fallible operations return `Except`/`Option`.  `uuid5`-based identifiers are
modelled by a deterministic injection `stable_guid`; no theorem below depends on
the actual digest values, only on determinism of the function.
-/

set_option maxRecDepth 10000

namespace GraphRag

/-- Python whitespace for `str.strip` / `\s`: space, tab, newline, carriage
return, vertical tab, form feed. -/
def pyIsSpace (c : Char) : Bool :=
  c = ' ' || c = '\t' || c = '\n' || c = '\r' || c = '\x0b' || c = '\x0c'

/-- Python `str.strip()`: remove leading and trailing whitespace. -/
def pyStrip (l : List Char) : List Char :=
  ((l.dropWhile pyIsSpace).reverse.dropWhile pyIsSpace).reverse

/-- Auxiliary for `splitParas`: split at each non-overlapping occurrence of
the two-character separator `"\n\n"`, scanning left to right. -/
def splitParasAux : List Char → List Char → List (List Char)
  | [], cur => [cur.reverse]
  | '\n' :: '\n' :: rest, cur => cur.reverse :: splitParasAux rest []
  | c :: rest, cur => splitParasAux rest (c :: cur)

/-- Python `text.split("\n\n")`. -/
def splitParas (l : List Char) : List (List Char) :=
  splitParasAux l []

/-- Fuelled form of Python's slicing loop
`[para[i : i + limit] for i in range(0, len(para), limit)]`.
With `limit > 0` a fuel of `l.length` is never exhausted, so `splitLong`
below computes exactly the Python list (the source only ever calls it with
`limit = target_chars = 3200 > 0`). -/
def splitLongAux : Nat → Nat → List Char → List (List Char)
  | 0, _, _ => []
  | _ + 1, _, [] => []
  | fuel + 1, limit, l => l.take limit :: splitLongAux fuel limit (l.drop limit)

/-- `_split_long(para, limit)` from `chunker.py`. -/
def splitLong (limit : Nat) (l : List Char) : List (List Char) :=
  splitLongAux l.length limit l

/-- The greedy assembly loop of `_chunk_text` (`chunker.py` lines 50-63):
`current` accumulates pieces joined by blank lines while the running length
stays within `target`; otherwise the current segment is committed
(stripped, and only if non-empty, mirroring `commit`). -/
def assemble (target : Nat) : List (List Char) → List Char → List (List Char)
  | [], current => if current.isEmpty then [] else [pyStrip current]
  | piece :: rest, current =>
    if current.length + piece.length + 2 ≤ target then
      assemble target rest (pyStrip (current ++ '\n' :: '\n' :: piece))
    else
      (if current.isEmpty then [] else [pyStrip current]) ++ assemble target rest piece

/-- Python `segment[-overlap:]` for `overlap > 0`: the trailing `overlap`
characters (the whole list when it is shorter). -/
def lastChars (overlap : Nat) (l : List Char) : List Char :=
  l.drop (l.length - overlap)

/-- The overlap pass of `_chunk_text` (`chunker.py` lines 70-77): each segment
after the first is prefixed with the trailing `overlap` characters of the
previous pre-merge segment, joined by `"\n"` and stripped. -/
def applyOverlap (overlap : Nat) : List Char → List (List Char) → List (List Char)
  | _, [] => []
  | prevTail, seg :: rest =>
    (if prevTail.isEmpty then seg else pyStrip (prevTail ++ '\n' :: seg)) ::
      applyOverlap overlap (lastChars overlap seg) rest

/-- Lines 41-48 of `chunker.py`: stripped non-empty paragraphs, oversized ones
hard-split before assembly. -/
def basePieces (targetChars : Nat) (t : List Char) : List (List Char) :=
  let paragraphs := ((splitParas t).map pyStrip).filter (fun p => !p.isEmpty)
  paragraphs.flatMap
    (fun para => if para.length ≤ targetChars then [para] else splitLong targetChars para)

/-- Python `xs or ys` on lists (list truthiness): `ys` when `xs` is empty. -/
def pyOrList (xs ys : List (List Char)) : List (List Char) :=
  if xs.isEmpty then ys else xs

/-- Lines 50-67 of `chunker.py`: greedy assembly over the pieces (falling back
to hard-splitting the stripped text when there are no pieces, or when assembly
produced nothing). -/
def baseSegments (targetChars : Nat) (t : List Char) : List (List Char) :=
  pyOrList
    (assemble targetChars (pyOrList (basePieces targetChars t) (splitLong targetChars t)) [])
    (splitLong targetChars t)

/-- `_chunk_text(text, target_chars, overlap_chars)` from `chunker.py`. -/
def chunkTextCore (text : List Char) (targetChars overlapChars : Nat) : List (List Char) :=
  if (pyStrip text).isEmpty then []
  else if overlapChars > 0 ∧ (baseSegments targetChars (pyStrip text)).length > 1 then
    applyOverlap overlapChars [] (baseSegments targetChars (pyStrip text))
  else baseSegments targetChars (pyStrip text)

/-- `NAMESPACE_UUID`-based `stable_guid` from `utils.py`.  `uuid5` computes a
SHA-1 digest; the model replaces the digest by a tagged copy of the seed.
This preserves exactly the property the sources rely on (identical input gives
identical output, distinct seeds give distinct guids); no claim below depends
on the concrete digest strings. -/
def stable_guid (value : String) : String :=
  "uuid5:" ++ value

/-- Canonical node identity from `models.py`: label plus the sorted tuple of
`(key_name, value)` pairs (`NodeKey.from_dict` sorts `key_props.items()`). -/
structure NodeKey where
  label : String
  key : List (String × String)
  deriving DecidableEq, Repr

/-- Python tuple ordering on `(str, str)` pairs: first component, then second. -/
def pairLe (a b : String × String) : Bool :=
  a.1 < b.1 || (a.1 = b.1 && decide (a.2 ≤ b.2))

/-- Insertion sort with Python's tuple ordering, modelling `sorted(...)`. -/
def insertPair (a : String × String) : List (String × String) → List (String × String)
  | [] => [a]
  | b :: rest => if pairLe a b then a :: b :: rest else b :: insertPair a rest

/-- Modelling `sorted(key_props.items())`. -/
def sortPairs : List (String × String) → List (String × String)
  | [] => []
  | a :: rest => insertPair a (sortPairs rest)

/-- `NodeKey.from_dict` from `models.py`. -/
def NodeKey.fromDict (label : String) (keyProps : List (String × String)) : NodeKey :=
  { label := label, key := sortPairs keyProps }

/-- Property values carried by nodes and edges: Python `str | bool | None`
(the sources never store numeric properties on nodes or edges). -/
inductive PVal where
  | str (v : String)
  | bool (v : Bool)
  | null
  deriving DecidableEq, Repr

/-- `GraphNode` from `models.py`: label, key map and property map, both
insertion-ordered association lists. -/
structure GraphNode where
  label : String
  key : List (String × String)
  properties : List (String × PVal)
  deriving DecidableEq, Repr

/-- `GraphNode.node_key()` from `models.py`. -/
def GraphNode.nodeKey (n : GraphNode) : NodeKey :=
  NodeKey.fromDict n.label n.key

/-- `GraphEdge` from `models.py`.  The endpoints are `Option NodeKey`: the
Python attributes are typed `NodeKey` but not enforced, and
`SchemaValidator._validate_edge` explicitly tests `not edge.start` /
`not edge.end`, which is true exactly for a missing (`None`) endpoint since a
`NodeKey` dataclass instance is always truthy. -/
structure GraphEdge where
  start : Option NodeKey
  type : String
  «end» : Option NodeKey
  properties : List (String × PVal) := []
  deriving DecidableEq, Repr

/-- Edge with both endpoints present, as every extractor constructs them. -/
def mkEdge (s : NodeKey) (t : String) (e : NodeKey) : GraphEdge :=
  { start := some s, type := t, «end» := e }

/-- `TextUnit` from `models.py`.  The `locator` field is declared without a
default in the dataclass, so a constructor call must supply it. -/
structure TextUnit where
  text : List Char
  path : String
  locator : Option String
  nodeKey : NodeKey
  deriving DecidableEq, Repr

/-- The `TypeError` message CPython raises for every `TextUnit(...)` call in
`extractors.py`: the dataclass field `locator` has no default, yet all seven
construction sites omit it. -/
def TEXTUNIT_TYPE_ERROR : String :=
  "TextUnit.__init__() missing 1 required positional argument: 'locator'"

/-- The call `TextUnit(text=..., path=..., node_key=...)` exactly as written
at every construction site in `extractors.py`: the required `locator`
argument is omitted and the field has no default, so CPython raises
`TypeError` instead of producing a unit. -/
def mkTextUnitNoLocator (_text : List Char) (_path : String) (_nodeKey : NodeKey) :
    Except String TextUnit :=
  Except.error TEXTUNIT_TYPE_ERROR

/-- `Chunk` from `models.py` (the unused `summary` field is omitted, it is
never set by the pipeline). -/
structure Chunk where
  chunkId : String
  text : List Char
  path : String
  locator : Option String
  nodeKey : NodeKey
  deriving DecidableEq, Repr

/-- Python `repr` of one `('name', 'value')` pair of strings.  The sources
only feed guid/name strings free of quotes and backslashes into key tuples,
so no repr-escaping is modelled. -/
def pyReprPair (p : String × String) : String :=
  "('" ++ p.1 ++ "', '" ++ p.2 ++ "')"

/-- Python `repr` of the key tuple of a `NodeKey` (a tuple of pairs):
`()` when empty, a trailing comma for a 1-tuple. -/
def pyReprKeyTuple : List (String × String) → String
  | [] => "()"
  | [p] => "(" ++ pyReprPair p ++ ",)"
  | l => "(" ++ String.intercalate ", " (l.map pyReprPair) ++ ")"

/-- `chunk_text_units` from `chunker.py`: chunk every text unit with
`target_chars = target_tokens * 4` and `overlap_chars = overlap_tokens * 4`,
minting a deterministic `chunk_id` per segment index. -/
def chunk_text_units (units : List TextUnit) (targetTokens : Nat := 800)
    (overlapTokens : Nat := 120) : List Chunk :=
  let targetChars := targetTokens * 4
  let overlapChars := overlapTokens * 4
  units.flatMap fun unit =>
    let segments := chunkTextCore unit.text targetChars overlapChars
    (List.range segments.length).zip segments |>.map fun (idx, segment) =>
      let locatorComponent := unit.locator.getD ""
      let seed := unit.nodeKey.label ++ "|" ++ pyReprKeyTuple unit.nodeKey.key ++ "|" ++
        locatorComponent ++ "|" ++ toString idx
      { chunkId := stable_guid seed
        text := segment
        path := unit.path
        locator := unit.locator
        nodeKey := unit.nodeKey }

/-! ### Pipeline node accumulator (`pipeline.py`, `_merge_nodes`) -/

/-- The dict comprehension `{k: v for k, v in node.properties.items() if v is not None}`. -/
def filterNonNull (props : List (String × PVal)) : List (String × PVal) :=
  props.filter (fun kv => kv.2 ≠ PVal.null)

/-- CPython `dict.__setitem__`: update the value in place when the key exists
(keeping its position), append otherwise. -/
def assocSet (k : String) (v : PVal) : List (String × PVal) → List (String × PVal)
  | [] => [(k, v)]
  | (k', v') :: rest => if k' = k then (k', v) :: rest else (k', v') :: assocSet k v rest

/-- CPython `dict.update(items)`: set each item in iteration order. -/
def dictUpdate (m : List (String × PVal)) (items : List (String × PVal)) : List (String × PVal) :=
  items.foldl (fun acc kv => assocSet kv.1 kv.2 acc) m

/-- Dictionary lookup (first occurrence; Python dicts never hold duplicates). -/
def lookupProp : List (String × PVal) → String → Option PVal
  | [], _ => none
  | (k, v) :: rest, name => if k = name then some v else lookupProp rest name

/-- Left-biased choice on optional property values. -/
def optOr (a b : Option PVal) : Option PVal :=
  match a with
  | some v => some v
  | none => b

/-- Value of the last entry for `name` in an item list (what a sequence of
`dict.__setitem__` calls leaves behind). -/
def lastAssoc : List (String × PVal) → String → Option PVal
  | [], _ => none
  | (k, v) :: rest, name =>
    optOr (lastAssoc rest name) (if k = name then some v else none)

/-- Membership test `key in nodes_by_key`. -/
def containsNodeKey (acc : List (NodeKey × GraphNode)) (k : NodeKey) : Bool :=
  acc.any (fun e => e.1 = k)

/-- In-place property update of the accumulated node with the given key,
mirroring `existing.properties.update({...})` in `_merge_nodes`. -/
def updateNodeAt (k : NodeKey) (node : GraphNode) :
    List (NodeKey × GraphNode) → List (NodeKey × GraphNode)
  | [] => []
  | (k', ex) :: rest =>
    if k' = k then
      (k', { ex with properties := dictUpdate ex.properties (filterNonNull node.properties) }) :: rest
    else (k', ex) :: updateNodeAt k node rest

/-- One iteration of the `for node in nodes` loop in `_merge_nodes`. -/
def mergeOneNode (acc : List (NodeKey × GraphNode)) (node : GraphNode) :
    List (NodeKey × GraphNode) :=
  if containsNodeKey acc node.nodeKey then updateNodeAt node.nodeKey node acc
  else acc ++ [(node.nodeKey, node)]

/-- `IndexingPipeline._merge_nodes` from `pipeline.py`: fold the extracted
nodes into the `nodes_by_key` accumulator. -/
def mergeNodes (acc : List (NodeKey × GraphNode)) (nodes : List GraphNode) :
    List (NodeKey × GraphNode) :=
  nodes.foldl mergeOneNode acc

/-- Lookup in the accumulator. -/
def lookupNode : List (NodeKey × GraphNode) → NodeKey → Option GraphNode
  | [], _ => none
  | (k', n) :: rest, k => if k' = k then some n else lookupNode rest k

/-- The non-null value a single property map assigns to `name`, if any. -/
def nonNullAt (props : List (String × PVal)) (name : String) : Option PVal :=
  match lookupProp props name with
  | some v => if v = PVal.null then none else some v
  | none => none

/-- The value assigned to `name` by the last occurrence in `l` that assigns it
a non-null value (specification-side description of the merge result). -/
def lastNonNull : List GraphNode → String → Option PVal
  | [], _ => none
  | n :: rest, name => optOr (lastNonNull rest name) (nonNullAt n.properties name)

/-- The property fold `rest.foldl` performed by repeated merging into one key. -/
def mergedProps (init : List (String × PVal)) (rest : List GraphNode) : List (String × PVal) :=
  rest.foldl (fun ps n => dictUpdate ps (filterNonNull n.properties)) init

/-- `ExtractionResult` from `models.py`. -/
structure ExtractionResult where
  nodes : List GraphNode := []
  edges : List GraphEdge := []
  text_units : List TextUnit := []
  deriving DecidableEq, Repr

/-! ### Path and string helpers shared by the extractors -/

/-- Split a string at every occurrence of one separator character
(Python `str.split(sep)` for a one-character separator). -/
def splitOnCharAux (sep : Char) : List Char → List Char → List (List Char)
  | [], cur => [cur.reverse]
  | c :: rest, cur =>
    if c = sep then cur.reverse :: splitOnCharAux sep rest []
    else splitOnCharAux sep rest (c :: cur)

/-- Python `s.split(sep)` for a one-character separator. -/
def splitOnChar (sep : Char) (s : String) : List String :=
  (splitOnCharAux sep s.toList []).map String.mk

/-- `pathlib.PurePosixPath(...).parts` for a relative path: split on `/`,
dropping empty components and single dots (pathlib collapses both). -/
def pathParts (s : String) : List String :=
  (splitOnChar '/' s).filter (fun p => p != "" && p != ".")

/-- `Path(...).name`: the final path component. -/
def pathName (s : String) : String :=
  (pathParts s).getLastD ""

/-- Position of the suffix dot in a file name under pathlib rules: the last
dot that is neither leading nor trailing. -/
def lastSuffixPos (cs : List Char) : Option Nat :=
  ((List.range cs.length).filter
    (fun i => cs.getD i ' ' = '.' && decide (0 < i) && decide (i < cs.length - 1))).getLast?

/-- `Path(...).stem`. -/
def pyStem (s : String) : String :=
  let name := (pathName s).toList
  match lastSuffixPos name with
  | some i => String.mk (name.take i)
  | none => String.mk name

/-- `Path(...).suffix`. -/
def pySuffix (s : String) : String :=
  let name := (pathName s).toList
  match lastSuffixPos name with
  | some i => String.mk (name.drop i)
  | none => ""

/-- Python `str.lower()` restricted to the ASCII and Cyrillic ranges — the
alphabets appearing in 1C sources and in every table of `extractors.py`. -/
def pyLowerChar (c : Char) : Char :=
  if 'A' ≤ c ∧ c ≤ 'Z' then Char.ofNat (c.toNat + 32)
  else if 0x410 ≤ c.toNat ∧ c.toNat ≤ 0x42F then Char.ofNat (c.toNat + 32)
  else if c.toNat = 0x401 then Char.ofNat 0x451
  else c

/-- Python `str.upper()` on the same ranges. -/
def pyUpperChar (c : Char) : Char :=
  if 'a' ≤ c ∧ c ≤ 'z' then Char.ofNat (c.toNat - 32)
  else if 0x430 ≤ c.toNat ∧ c.toNat ≤ 0x44F then Char.ofNat (c.toNat - 32)
  else if c.toNat = 0x451 then Char.ofNat 0x401
  else c

/-- `str.lower()` on a character list. -/
def pyLower (l : List Char) : List Char :=
  l.map pyLowerChar

/-- `str.lower()` on a string. -/
def pyLowerStr (s : String) : String :=
  String.mk (pyLower s.toList)

/-- `str.upper()` on a string. -/
def pyUpperStr (s : String) : String :=
  String.mk (s.toList.map pyUpperChar)

/-- `str.capitalize()`: first character upper-cased, the rest lower-cased. -/
def pyCapitalize (s : String) : String :=
  match s.toList with
  | [] => ""
  | c :: rest => String.mk (pyUpperChar c :: pyLower rest)

/-- Python `needle in haystack` substring test. -/
def containsSub (needle : List Char) : List Char → Bool
  | [] => needle.isEmpty
  | c :: t => List.isPrefixOf needle (c :: t) || containsSub needle t

/-- Python `str.splitlines()` on `\n`-normalised text (the loader normalises
`\r\n` and `\r` away before extraction): no trailing empty line. -/
def splitlinesAux : List Char → List Char → List (List Char)
  | [], cur => [cur.reverse]
  | '\n' :: [], cur => [cur.reverse]
  | '\n' :: rest, cur => cur.reverse :: splitlinesAux rest []
  | c :: rest, cur => splitlinesAux rest (c :: cur)

/-- `content.splitlines()`. -/
def pySplitlines (l : List Char) : List (List Char) :=
  if l.isEmpty then [] else splitlinesAux l []

/-- Lookup in a string-to-string table (`dict.get`). -/
def lookupStr (m : List (String × String)) (k : String) : Option String :=
  (m.find? (fun e => e.1 = k)).map Prod.snd

/-- The regex class `[\w]` under `re.UNICODE`, restricted to the ASCII and
Cyrillic ranges exercised by 1C sources. -/
def isWordChar (c : Char) : Bool :=
  ('a' ≤ c && c ≤ 'z') || ('A' ≤ c && c ≤ 'Z') || ('0' ≤ c && c ≤ '9') || c = '_' ||
    (decide (0x400 ≤ c.toNat) && decide (c.toNat ≤ 0x4FF))

/-- The regex class `[A-Za-zЀ-ӿ_]` (routine names, register names). -/
def isIdentFirst (c : Char) : Bool :=
  ('a' ≤ c && c ≤ 'z') || ('A' ≤ c && c ≤ 'Z') || c = '_' ||
    (decide (0x400 ≤ c.toNat) && decide (c.toNat ≤ 0x4FF))

/-- The regex class `[A-Za-zА-Яа-я_]` (call and reference identifiers). -/
def isCallFirst (c : Char) : Bool :=
  ('a' ≤ c && c ≤ 'z') || ('A' ≤ c && c ≤ 'Z') || c = '_' ||
    (decide (0x410 ≤ c.toNat) && decide (c.toNat ≤ 0x44F))

/-! ### Extractor tables (`extractors.py` lines 18-93) -/

/-- `OBJECT_TYPE_MAP`. -/
def OBJECT_TYPE_MAP : List (String × String) :=
  [ ("Catalogs", "Catalog"), ("Documents", "Document"), ("Reports", "Report")
  , ("DataProcessors", "DataProcessor"), ("InformationRegisters", "InformationRegister")
  , ("AccumulationRegisters", "AccumulationRegister")
  , ("ChartsOfCharacteristicTypes", "ChartOfCharacteristicTypes")
  , ("CommonModules", "CommonModule"), ("Enums", "Enum"), ("Constants", "Constant") ]

/-- `MODULE_KIND_MAP`. -/
def MODULE_KIND_MAP : List (String × String) :=
  [ ("ObjectModule", "ObjectModule"), ("ManagerModule", "ManagerModule")
  , ("FormModule", "FormModule"), ("CommandModule", "CommandModule")
  , ("CommonModule", "CommonModule") ]

/-- `EXEC_SIDE_DIRECTIVES`. -/
def EXEC_SIDE_DIRECTIVES : List (String × String) :=
  [ ("НаКлиенте", "Client"), ("НаСервере", "Server"), ("НаСервереБезКонтекста", "Server")
  , ("НаКлиентеНаСервереБезКонтекста", "ClientServer"), ("НаКлиентеНаСервере", "ClientServer") ]

/-- `RESERVED_CALL_NAMES`. -/
def RESERVED_CALL_NAMES : List String :=
  [ "Если", "Тогда", "Иначе", "КонецЕсли", "Для", "Каждого", "Цикл", "КонецЦикла"
  , "Попытка", "Исключение", "КонецПопытки", "Возврат", "Продолжить", "Прервать" ]

/-- `REGISTER_PREFIXES`. -/
def REGISTER_PREFIXES : List (String × String) :=
  [ ("РегистрыНакопления", "AccumulationRegister"), ("РегистрыСведений", "InformationRegister") ]

/-- `REFERENCE_PREFIXES`. -/
def REFERENCE_PREFIXES : List (String × String) :=
  [ ("Документ", "Document"), ("Справочник", "Catalog"), ("ПланОбмена", "ExchangePlan")
  , ("ПланВидовХарактеристик", "ChartOfCharacteristicTypes") ]

/-- `REGISTER_READ_TOKENS`. -/
def REGISTER_READ_TOKENS : List String :=
  ["Выбрать", "Получить", "Найти", "СрезПервых", "Подбор", "Select", "Get"]

/-- `REGISTER_WRITE_TOKENS`. -/
def REGISTER_WRITE_TOKENS : List String :=
  ["Записать", "Запись", "Добавить", "СоздатьНаборЗаписей", "Write", "Post"]

/-! ### Common prefix: `_build_object_and_module` -/

/-- `LoadedDocument` from `loader.py` (the absolute path is not consumed by
extraction). -/
structure LoadedDocument where
  rel_path : String
  extension : String
  content : List Char
  deriving DecidableEq, Repr

/-- `_build_object_and_module` from `extractors.py`: optional `Object` node
from the first two path components, the `Module` node with its kind, and the
`HAS_MODULE`/`OWNED_BY` edges. -/
def buildObjectAndModule (doc : LoadedDocument) :
    GraphNode × NodeKey × Option GraphNode × List GraphEdge × Option String :=
  let parts := pathParts doc.rel_path
  let objPair : Option GraphNode × Option String :=
    if parts.length ≥ 2 then
      let root := parts.getD 0 ""
      let objType := (lookupStr OBJECT_TYPE_MAP root).getD "Other"
      let name := parts.getD 1 ""
      let qn := root ++ "." ++ name
      ( some { label := "Object", key := [("qualified_name", qn)],
               properties := [ ("qualified_name", PVal.str qn), ("type", PVal.str objType)
                             , ("name", PVal.str name), ("path", PVal.str doc.rel_path) ] }
      , some qn )
    else (none, none)
  let objectNode := objPair.1
  let ownerQn := objPair.2
  let moduleName := pyStem doc.rel_path
  let moduleKind :=
    match lookupStr MODULE_KIND_MAP moduleName with
    | some k => some k
    | none =>
      if parts.length > 2 then
        some ((lookupStr MODULE_KIND_MAP ((splitOnChar '.' (parts.getD 2 "")).headD "")).getD "CommonModule")
      else none
  let moduleGuid := stable_guid (doc.rel_path ++ ":module")
  let moduleProps :=
    [ ("name", PVal.str moduleName), ("kind", PVal.str (moduleKind.getD "CommonModule"))
    , ("guid", PVal.str moduleGuid), ("path", PVal.str doc.rel_path) ] ++
    (match ownerQn with
     | some qn => [("owner_qn", PVal.str qn)]
     | none => [])
  let moduleNode : GraphNode :=
    { label := "Module", key := [("guid", moduleGuid)], properties := moduleProps }
  let moduleKey := moduleNode.nodeKey
  let edges :=
    match objectNode with
    | some obj => [mkEdge obj.nodeKey "HAS_MODULE" moduleKey, mkEdge moduleKey "OWNED_BY" obj.nodeKey]
    | none => []
  (moduleNode, moduleKey, objectNode, edges, ownerQn)

/-! ### The `.bsl` extractor (`_extract_bsl`) -/

/-- Case-insensitive keyword prefix match; returns the remainder. -/
def matchKeywordCI (kwLower : List Char) (l : List Char) : Option (List Char) :=
  if kwLower.length ≤ l.length ∧ pyLower (l.take kwLower.length) = kwLower then
    some (l.drop kwLower.length)
  else none

/-- The routine-start regex
`^(Процедура|Функция|Procedure|Function)\s+([A-Za-zЀ-ӿ_][\w]*)\s*\((.*?)\)\s*(.*)$`
with `re.IGNORECASE`, applied to a stripped line.  Returns
`(name, params, tail)`.  The lazy group 3 captures up to the first closing
parenthesis. -/
def matchRoutineStart (line : List Char) : Option (String × String × List Char) :=
  (["процедура", "функция", "procedure", "function"].findSome?
    (fun kw => matchKeywordCI kw.toList line)).bind fun rest =>
    match rest with
    | c :: _ =>
      if pyIsSpace c then
        let rest1 := rest.dropWhile pyIsSpace
        match rest1 with
        | c1 :: t1 =>
          if isIdentFirst c1 then
            let name := c1 :: t1.takeWhile isWordChar
            let afterName := (t1.dropWhile isWordChar).dropWhile pyIsSpace
            match afterName with
            | '(' :: t2 =>
              let params := t2.takeWhile (fun c => c ≠ ')')
              match t2.dropWhile (fun c => c ≠ ')') with
              | ')' :: t3 =>
                some (String.mk name, String.mk params, t3.dropWhile pyIsSpace)
              | _ => none
            | _ => none
          else none
        | [] => none
      else none
    | [] => none

/-- The routine-end regex `^(КонецПроцедуры|КонецФункции|EndProcedure|EndFunction)`
with `re.IGNORECASE` on the stripped line. -/
def isRoutineEnd (line : List Char) : Bool :=
  ["конецпроцедуры", "конецфункции", "endprocedure", "endfunction"].any
    (fun kw => List.isPrefixOf kw.toList (pyLower line))

/-- `directive.strip().strip("()").replace("&", "")` of `_determine_exec_side`. -/
def cleanDirective (d : List Char) : String :=
  let s := pyStrip d
  let isParen : Char → Bool := fun c => c = '(' || c = ')'
  let s := ((s.dropWhile isParen).reverse.dropWhile isParen).reverse
  String.mk (s.filter (fun c => c ≠ '&'))

/-- `_determine_exec_side`: first buffered directive recognised by
`EXEC_SIDE_DIRECTIVES`, else `"Unknown"`. -/
def determineExecSide (directives : List (List Char)) : String :=
  (directives.findSome? (fun d => lookupStr EXEC_SIDE_DIRECTIVES (cleanDirective d))).getD "Unknown"

/-- Update in an insertion-ordered `str → NodeKey` dict (`routine_map`). -/
def assocSetKey (k : String) (v : NodeKey) : List (String × NodeKey) → List (String × NodeKey)
  | [] => [(k, v)]
  | (k', v') :: rest => if k' = k then (k', v) :: rest else (k', v') :: assocSetKey k v rest

/-- `routine_map.get(name)`. -/
def lookupKey (m : List (String × NodeKey)) (k : String) : Option NodeKey :=
  (m.find? (fun e => e.1 = k)).map Prod.snd

/-- Update in the `_routine_bodies` map (`NodeKey → str`). -/
def assocSetBody (k : NodeKey) (v : List Char) :
    List (NodeKey × List Char) → List (NodeKey × List Char)
  | [] => [(k, v)]
  | (k', v') :: rest => if k' = k then (k', v) :: rest else (k', v') :: assocSetBody k v rest

/-- `_routine_bodies.get(node_key)`. -/
def lookupBody (m : List (NodeKey × List Char)) (k : NodeKey) : Option (List Char) :=
  (m.find? (fun e => e.1 = k)).map Prod.snd

/-- `"\n".join(lines)`. -/
def joinNL (ls : List (List Char)) : List Char :=
  match ls with
  | [] => []
  | l :: rest => l ++ (rest.flatMap (fun x => '\n' :: x))

/-- Scanner state of the `.bsl` line loop, including the accumulating
`ExtractionResult`, the `routine_map` and the module-global `_routine_bodies`
(cleared at each `_extract_bsl` entry, then written by `_finalize_routine`). -/
structure BslScan where
  nodes : List GraphNode
  edges : List GraphEdge
  text_units : List TextUnit
  directiveBuf : List (List Char)
  routineMap : List (String × NodeKey)
  bodies : List (NodeKey × List Char)
  curName : Option String
  curSig : Option String
  curExport : Bool
  curExecSide : String
  curLines : List (List Char)

/-- `_finalize_routine` from `extractors.py`: emit the `Routine` node, the
`HAS_ROUTINE` edge and the body `TextUnit`, and record the routine in
`routine_map` and `_routine_bodies`.  The guid seed renders the Python
f-string `f"{module_key.label}:{module_key.key}:{name}"` (the key tuple is
rendered with `repr`).  The `TextUnit(...)` call raises `TypeError` (the
required `locator` argument is omitted), so the function never returns
normally: the node/edge appends preceding the raise mutate only the local
result that the propagating exception discards, and the `routine_map` /
`_routine_bodies` writes after the raise never happen. -/
def finalizeRoutine (moduleKey : NodeKey) (ownerQn : Option String) (st : BslScan)
    (name : String) (signature : String) (exportFlag : Bool) (execSide : String)
    (body : List Char) : Except String BslScan :=
  let routineGuid := stable_guid (moduleKey.label ++ ":" ++ pyReprKeyTuple moduleKey.key ++ ":" ++ name)
  let node : GraphNode :=
    { label := "Routine", key := [("guid", routineGuid)],
      properties :=
        [ ("name", PVal.str name), ("signature", PVal.str signature)
        , ("export", PVal.bool exportFlag), ("exec_side", PVal.str execSide)
        , ("guid", PVal.str routineGuid)
        , ("owner_qn", (ownerQn.map PVal.str).getD PVal.null) ] }
  let nodeKey := node.nodeKey
  match mkTextUnitNoLocator body (if signature = "" then name else signature) nodeKey with
  | Except.error e => Except.error e
  | Except.ok tu =>
    Except.ok { st with
      nodes := st.nodes ++ [node]
      edges := st.edges ++ [mkEdge moduleKey "HAS_ROUTINE" nodeKey]
      text_units := st.text_units ++ [tu]
      routineMap := assocSetKey name nodeKey st.routineMap
      bodies := assocSetBody nodeKey body st.bodies }

/-- One iteration of the `for line in lines` loop of `_extract_bsl`.  The
`TypeError` raised inside `_finalize_routine` propagates out of the loop. -/
def bslLine (moduleKey : NodeKey) (ownerQn : Option String) (st : BslScan)
    (line : List Char) : Except String BslScan :=
  let stripped := pyStrip line
  match stripped with
  | '&' :: _ =>
    Except.ok { st with directiveBuf := st.directiveBuf ++ [stripped.dropWhile (fun c => c = '&')] }
  | _ =>
    match matchRoutineStart stripped with
    | some (name, params, tail) =>
      let r1 :=
        match st.curName with
        | some prevName =>
          finalizeRoutine moduleKey ownerQn st prevName (st.curSig.getD "") st.curExport
            st.curExecSide (joinNL st.curLines)
        | none => Except.ok st
      match r1 with
      | Except.error e => Except.error e
      | Except.ok st1 =>
        let signature := String.mk (pyStrip ((name.toList ++ '(' :: (pyStrip params.toList)) ++ [')']))
        Except.ok { st1 with
          curName := some name
          curSig := some signature
          curExport := containsSub "экспорт".toList (pyLower tail) ||
            containsSub "export".toList (pyLower tail)
          curExecSide := determineExecSide st1.directiveBuf
          curLines := []
          directiveBuf := [] }
    | none =>
      if isRoutineEnd stripped ∧ st.curName.isSome then
        match finalizeRoutine moduleKey ownerQn st (st.curName.getD "") (st.curSig.getD "")
          st.curExport st.curExecSide (joinNL st.curLines) with
        | Except.error e => Except.error e
        | Except.ok st1 =>
          Except.ok { st1 with
            curName := none, curSig := none, curExport := false
            curExecSide := "Unknown", curLines := [], directiveBuf := [] }
      else if st.curName.isSome then
        Except.ok { st with curLines := st.curLines ++ [line] }
      else Except.ok st

/-- The per-line step lifted over the propagating exception: once a line has
raised, the remaining lines are never reached. -/
def bslLineE (moduleKey : NodeKey) (ownerQn : Option String)
    (st : Except String BslScan) (line : List Char) : Except String BslScan :=
  match st with
  | Except.error e => Except.error e
  | Except.ok s => bslLine moduleKey ownerQn s line

/-- One register usage record (`RegisterUsage` with its operations set). -/
structure RegUse where
  name : String
  label : String
  read : Bool
  write : Bool
  deriving DecidableEq, Repr

/-- Merge one usage into an insertion-ordered usage dict keyed by
`(label, name)` (set union on the operation flags). -/
def mergeUsage (acc : List RegUse) (u : RegUse) : List RegUse :=
  if acc.any (fun e => e.label = u.label && e.name = u.name) then
    acc.map (fun e =>
      if e.label = u.label && e.name = u.name then
        { e with read := e.read || u.read, write := e.write || u.write }
      else e)
  else acc ++ [u]

/-- Match `prefix + "." + ident` at the head of `l`; returns the identifier
and the match length. -/
def tryRegisterAt (pfxDot : List Char) (l : List Char) : Option (String × Nat) :=
  if List.isPrefixOf pfxDot l then
    match l.drop pfxDot.length with
    | c :: t =>
      if isIdentFirst c then
        let ident := c :: t.takeWhile isWordChar
        some (String.mk ident, pfxDot.length + ident.length)
      else none
    | [] => none
  else none

/-- `re.finditer` scan for one register prefix, with byte offsets for the
±200-character context window. -/
def scanRegisterAux (pfxDot : List Char) : Nat → Nat → List Char → List (String × Nat × Nat)
  | 0, _, _ => []
  | _ + 1, _, [] => []
  | fuel + 1, pos, l@(_ :: t) =>
    match tryRegisterAt pfxDot l with
    | some (name, len) => (name, pos, pos + len) :: scanRegisterAux pfxDot fuel (pos + len) (l.drop len)
    | none => scanRegisterAux pfxDot fuel (pos + 1) t

/-- The read/write classification of one register hit: fixed tokens searched
case-insensitively in `body[max(0, start-200) : end+200]`
(`_extract_register_usages`). -/
def classifyRegisterHit (body : List Char) (startPos endPos : Nat) : Bool × Bool :=
  let lo := startPos - 200
  let ctx := pyLower ((body.drop lo).take (endPos + 200 - lo))
  let r := REGISTER_READ_TOKENS.any (fun tok => containsSub (pyLower tok.toList) ctx)
  let w := REGISTER_WRITE_TOKENS.any (fun tok => containsSub (pyLower tok.toList) ctx)
  (r, w)

/-- `_extract_register_usages` from `extractors.py`. -/
def extractRegisterUsages (body : List Char) : List RegUse :=
  (REGISTER_PREFIXES.flatMap (fun (pfx, label) =>
    (scanRegisterAux (pfx.toList ++ ['.']) body.length 0 body).map (fun (name, s, e) =>
      let rw := classifyRegisterHit body s e
      let rw := if !rw.1 && !rw.2 then (true, false) else rw
      { name := name, label := label, read := rw.1, write := rw.2 : RegUse }))).foldl
    mergeUsage []

/-- One match attempt of the CALLS regex `([A-Za-zА-Яа-я_][\w]*)\s*\(`. -/
def tryCallAt (l : List Char) : Option (String × List Char) :=
  match l with
  | c :: t =>
    if isCallFirst c then
      let ident := c :: t.takeWhile isWordChar
      match (t.dropWhile isWordChar).dropWhile pyIsSpace with
      | '(' :: r => some (String.mk ident, r)
      | _ => none
    else none
  | [] => none

/-- `re.finditer` scan of the CALLS regex. -/
def scanCallsAux : Nat → List Char → List String
  | 0, _ => []
  | _ + 1, [] => []
  | fuel + 1, l@(_ :: t) =>
    match tryCallAt l with
    | some (name, rest) => name :: scanCallsAux fuel rest
    | none => scanCallsAux fuel t

/-- `_extract_calls`: candidates not in the reserved set that name another
routine of the same module. -/
def extractCalls (body : List Char) (routineMap : List (String × NodeKey)) : List String :=
  (scanCallsAux body.length body).filter
    (fun name => name ∉ RESERVED_CALL_NAMES && (routineMap.any (fun e => e.1 = name)))

/-- `re.finditer` scan for one reference prefix (`_extract_references`). -/
def scanRefsAux (pfxDot : List Char) : Nat → List Char → List String
  | 0, _ => []
  | _ + 1, [] => []
  | fuel + 1, l@(_ :: t) =>
    match tryRegisterAt pfxDot l with
    | some (name, len) => name :: scanRefsAux pfxDot fuel (l.drop len)
    | none => scanRefsAux pfxDot fuel t

/-- `_extract_references`: all `(name, label)` hits, one prefix after
another in table order. -/
def extractReferences (body : List Char) : List (String × String) :=
  REFERENCE_PREFIXES.flatMap (fun (pfx, label) =>
    (scanRefsAux (pfx.toList ++ ['.']) body.length body).map (fun name => (name, label)))

/-- The referenced `Object` node emitted by the reference loop of
`_extract_bsl`. -/
def refObjectNode (label name : String) : GraphNode :=
  { label := "Object", key := [("qualified_name", label ++ "." ++ name)],
    properties :=
      [ ("qualified_name", PVal.str (label ++ "." ++ name)), ("type", PVal.str label)
      , ("name", PVal.str name) ] }

/-- The per-routine post-processing loop of `_extract_bsl` (CALLS edges,
register usage merging, REFERENCES nodes and edges). -/
def routinePost (bodies : List (NodeKey × List Char)) (routineMap : List (String × NodeKey))
    (acc : List GraphNode × List GraphEdge × List RegUse) (entry : String × NodeKey) :
    List GraphNode × List GraphEdge × List RegUse :=
  let (nodes, edges, regs) := acc
  match lookupBody bodies entry.2 with
  | none => acc
  | some body =>
    if body.isEmpty then acc
    else
      let callEdges := (extractCalls body routineMap).filterMap
        (fun target => (lookupKey routineMap target).map (fun tk => mkEdge entry.2 "CALLS" tk))
      let regs' := (extractRegisterUsages body).foldl mergeUsage regs
      let refs := extractReferences body
      let refNodes := refs.map (fun (n, lbl) => refObjectNode lbl n)
      let refEdges := refs.map (fun (n, lbl) => mkEdge entry.2 "REFERENCES" (refObjectNode lbl n).nodeKey)
      (nodes ++ refNodes, edges ++ callEdges ++ refEdges, regs')

/-- The final register loop of `_extract_bsl`: emit each register node once
(deduplicated by guid through `_seen_registers`), with
`READS_FROM`/`WRITES_TO` edges and `MAKES_MOVEMENTS_IN` for accumulation
registers written from a `Document` module. -/
def registersPost (moduleKey : NodeKey) (objectNode : Option GraphNode)
    (regs : List RegUse) : List GraphNode × List GraphEdge :=
  let isDocumentObject :=
    match objectNode with
    | some obj => lookupProp obj.properties "type" = some (PVal.str "Document")
    | none => false
  let step := fun (acc : List GraphNode × List GraphEdge × List (String × NodeKey)) (u : RegUse) =>
    let (nodes, edges, seen) := acc
    let guid := stable_guid (u.label ++ ":" ++ u.name)
    let regNode : GraphNode :=
      { label := u.label, key := [("guid", guid)],
        properties := [("name", PVal.str u.name), ("guid", PVal.str guid)] }
    let fresh := !(seen.any (fun e => e.1 = guid))
    let regKey := if fresh then regNode.nodeKey else (lookupKey seen guid).getD regNode.nodeKey
    let nodes := if fresh then nodes ++ [regNode] else nodes
    let seen := if fresh then seen ++ [(guid, regNode.nodeKey)] else seen
    let edges := edges ++
      (if u.read then [mkEdge moduleKey "READS_FROM" regKey] else []) ++
      (if u.write then
        [mkEdge moduleKey "WRITES_TO" regKey] ++
        (if isDocumentObject && u.label = "AccumulationRegister" then
          [mkEdge ((objectNode.map GraphNode.nodeKey).getD moduleKey) "MAKES_MOVEMENTS_IN" regKey]
        else [])
      else [])
    (nodes, edges, seen)
  let r := regs.foldl step ([], [], [])
  (r.1, r.2.1)

/-- `_extract_bsl` from `extractors.py`.  Returns the extraction outcome and
the final contents of the module-global `_routine_bodies` map; the incoming
global map is irrelevant because the function clears it on entry
(`_routine_bodies.clear()`).  The first finalized routine raises `TypeError`
at its `TextUnit(...)` call, which propagates out of the function, leaving
the cleared global map empty; only a module with no finalized routine
returns a result. -/
def extract_bsl (doc : LoadedDocument) :
    Except String ExtractionResult × List (NodeKey × List Char) :=
  let (moduleNode, moduleKey, objectNode, edges0, ownerQn) := buildObjectAndModule doc
  let nodes0 := [moduleNode] ++ (match objectNode with | some o => [o] | none => [])
  let init : BslScan :=
    { nodes := nodes0, edges := edges0, text_units := [], directiveBuf := []
    , routineMap := [], bodies := [], curName := none, curSig := none
    , curExport := false, curExecSide := "Unknown", curLines := [] }
  match (pySplitlines doc.content).foldl (bslLineE moduleKey ownerQn) (Except.ok init) with
  | Except.error e => (Except.error e, [])
  | Except.ok st1 =>
    let st2E :=
      match st1.curName with
      | some nm =>
        finalizeRoutine moduleKey ownerQn st1 nm (st1.curSig.getD "") st1.curExport
          st1.curExecSide (joinNL st1.curLines)
      | none => Except.ok st1
    match st2E with
    | Except.error e => (Except.error e, [])
    | Except.ok st2 =>
      let post := st2.routineMap.foldl (routinePost st2.bodies st2.routineMap) ([], [], [])
      let regsOut := registersPost moduleKey objectNode post.2.2
      ( Except.ok
          { nodes := st2.nodes ++ post.1 ++ regsOut.1
          , edges := st2.edges ++ post.2.1 ++ regsOut.2
          , text_units := st2.text_units }
      , st2.bodies )

/-! ### Extraction result and schema validator (`schema_validator.py`) -/

/-- `NodeSpec` from `schema_validator.py`: required and allowed property names
of one node label. -/
structure NodeSpec where
  label : String
  required : List String
  allowed : List String
  deriving DecidableEq, Repr

/-- The in-memory schema produced by `SchemaValidator._load_schema` (the JSON
file read itself is I/O; validation only consumes these fields). -/
structure Schema where
  nodeSpecs : List (String × NodeSpec)
  relationshipTypes : List String
  additionalNodeTypes : Bool := true
  additionalRelationshipTypes : Bool := true
  additionalPropertiesAllowed : Bool := true
  deriving DecidableEq, Repr

/-- `self._node_specs.get(node.label)`. -/
def Schema.findSpec (s : Schema) (label : String) : Option NodeSpec :=
  (s.nodeSpecs.find? (fun e => e.1 = label)).map Prod.snd

/-- Python `node.properties.get(prop) in (None, "")`: the property is absent,
explicitly null, or the empty string. -/
def propMissing (v : Option PVal) : Bool :=
  match v with
  | none => true
  | some PVal.null => true
  | some (PVal.str s) => s = ""
  | some _ => false

/-- `SchemaValidator._validate_node`. -/
def validateNode (s : Schema) (node : GraphNode) : Except String Unit :=
  match s.findSpec node.label with
  | none =>
    if s.additionalNodeTypes then Except.ok ()
    else Except.error ("Unknown node label " ++ node.label)
  | some spec =>
    if !s.additionalPropertiesAllowed ∧ node.properties.any (fun kv => kv.1 ∉ spec.allowed) then
      Except.error ("Node " ++ node.label ++ " contains unsupported properties")
    else if spec.required.any (fun p => propMissing (lookupProp node.properties p)) then
      Except.error ("Node " ++ node.label ++ " missing required properties")
    else Except.ok ()

/-- `SchemaValidator._validate_edge`.  When the relationship type is unknown
and `additional_relationship_types` is set, the Python code returns before the
endpoint check; otherwise it raises for the unknown type.  Only for known
types does control reach the endpoint check. -/
def validateEdge (s : Schema) (e : GraphEdge) : Except String Unit :=
  if e.type ∉ s.relationshipTypes then
    if s.additionalRelationshipTypes then Except.ok ()
    else Except.error ("Unknown relationship type " ++ e.type)
  else if e.start.isNone || e.«end».isNone then
    Except.error "Edge must have start and end node keys"
  else Except.ok ()

/-- `SchemaValidator._validate_text_unit`. -/
def validateTextUnit (_s : Schema) (tu : TextUnit) : Except String Unit :=
  if tu.path = "" ∨ (pyStrip tu.path.toList).isEmpty then
    Except.error "TextUnit missing required file path"
  else Except.ok ()

/-- First failure over a list, mirroring a `for` loop whose body can raise. -/
def firstError (f : α → Except String Unit) : List α → Except String Unit
  | [] => Except.ok ()
  | x :: rest =>
    match f x with
    | Except.ok () => firstError f rest
    | Except.error e => Except.error e

/-- `SchemaValidator.validate`: all nodes, then all edges, then all text
units; the first violation raises `SchemaValidationError`. -/
def validate (s : Schema) (extraction : ExtractionResult) : Except String Unit :=
  match firstError (validateNode s) extraction.nodes with
  | Except.error e => Except.error e
  | Except.ok () =>
    match firstError (validateEdge s) extraction.edges with
    | Except.error e => Except.error e
    | Except.ok () => firstError (validateTextUnit s) extraction.text_units

/-- Schema used by the C5 analysis: one known relationship type, additional
relationship types allowed (the defaults of `_load_schema`). -/
def c5Schema : Schema :=
  { nodeSpecs := [], relationshipTypes := ["HAS_MODULE"] }

/-- An edge with a missing start endpoint and a relationship type unknown to
the ontology. -/
def c5Edge : GraphEdge :=
  { start := none, type := "UNKNOWN_REL", «end» := some { label := "Module", key := [("guid", "g")] } }

/-! ### Job state and store (`jobs.py`) -/

/-- `JobStatus` from `jobs.py`. -/
inductive JobStatus where
  | PENDING
  | RUNNING
  | DONE
  | ERROR
  deriving DecidableEq, Repr

/-- `status.value` of the string enum. -/
def JobStatus.value : JobStatus → String
  | .PENDING => "PENDING"
  | .RUNNING => "RUNNING"
  | .DONE => "DONE"
  | .ERROR => "ERROR"

/-- `JobError` from `jobs.py`. -/
structure JobErrorRec where
  message : String
  path : Option String := none
  deriving DecidableEq, Repr

/-- The runtime `JobStats` object.  The first six fields are the declared
dataclass fields (`jobs.py` lines 21-28).  The remaining attributes are set
dynamically on instances by `pipeline.py` (phase, embedded and graph-write
progress) and `main.py` (session record); Python allows this because the
dataclass has no `__slots__`.  `duration_sec` is a float in Python; it is
modelled in clock ticks, no claim inspects its value. -/
structure JobStatsObj where
  total_files : Nat := 0
  processed_files : Nat := 0
  nodes : Nat := 0
  edges : Nat := 0
  vector_chunks : Nat := 0
  duration_sec : Nat := 0
  phase : Option String := none
  embedded_chunks : Option Nat := none
  graph_nodes_total : Option Nat := none
  graph_nodes_written : Option Nat := none
  graph_edges_total : Option Nat := none
  graph_edges_written : Option Nat := none
  session_segments : Option (List Nat) := none
  session_batches : Option Nat := none
  session_total_files : Option Nat := none
  deriving DecidableEq, Repr

/-- JSON values appearing in serialized job records (no serialized stats
field is list-valued: the dynamically attached `session_segments` list is
dropped by `dataclasses.asdict`, as proved below). -/
inductive JVal where
  | num (n : Nat)
  | str (s : String)
  | null
  deriving DecidableEq, Repr

/-- `dataclasses.asdict` on a `JobStats` instance: only the declared dataclass
fields are serialized; dynamically added attributes are not fields and are
silently dropped. -/
def statsAsdict (s : JobStatsObj) : List (String × JVal) :=
  [ ("total_files", JVal.num s.total_files)
  , ("processed_files", JVal.num s.processed_files)
  , ("nodes", JVal.num s.nodes)
  , ("edges", JVal.num s.edges)
  , ("vector_chunks", JVal.num s.vector_chunks)
  , ("duration_sec", JVal.num s.duration_sec) ]

/-- In-memory `JobState` (`jobs.py`).  Timestamps are clock ticks. -/
structure JobState where
  job_id : String
  collection : String
  status : JobStatus := .PENDING
  stats : JobStatsObj := {}
  errors : List JobErrorRec := []
  created_at : Nat := 0
  updated_at : Nat := 0
  started_at : Option Nat := none
  finished_at : Option Nat := none
  deriving DecidableEq, Repr

/-- The serialized job record written by `JobStore.save`
(`JobState.to_primitive`). -/
structure JobStatePrim where
  job_id : String
  collection : String
  status : String
  stats : List (String × JVal)
  errors : List JobErrorRec
  created_at : Nat
  updated_at : Nat
  started_at : Option Nat
  finished_at : Option Nat
  deriving DecidableEq, Repr

/-- `JobState.to_primitive` from `jobs.py`: statuses and timestamps are
rendered, and `stats` is serialized through `dataclasses.asdict`. -/
def JobState.to_primitive (st : JobState) : JobStatePrim :=
  { job_id := st.job_id
    collection := st.collection
    status := st.status.value
    stats := statsAsdict st.stats
    errors := st.errors
    created_at := st.created_at
    updated_at := st.updated_at
    started_at := st.started_at
    finished_at := st.finished_at }

/-- Key update in the Redis keyspace backing the job store. -/
def assocSetPrim (k : String) (v : JobStatePrim) :
    List (String × JobStatePrim) → List (String × JobStatePrim)
  | [] => [(k, v)]
  | (k', v') :: rest => if k' = k then (k', v) :: rest else (k', v') :: assocSetPrim k v rest

/-- The Redis state seen by `JobStore`: the current record per `job_id`, plus
the chronological log of every record ever written (the persisted snapshot
trajectory). -/
structure StoreState where
  entries : List (String × JobStatePrim) := []
  log : List JobStatePrim := []
  deriving DecidableEq, Repr

/-- `JobStore.save`: stamp `updated_at = now` and write the serialized record.
Returns the store and the (mutated) state object. -/
def jobStoreSave (now : Nat) (store : StoreState) (st : JobState) : StoreState × JobState :=
  let st' := { st with updated_at := now }
  ( { entries := assocSetPrim st'.job_id st'.to_primitive store.entries
      log := store.log ++ [st'.to_primitive] }
  , st' )

/-- `JobStore.get`. -/
def jobStoreGet (store : StoreState) (jobId : String) : Option JobStatePrim :=
  (store.entries.find? (fun e => e.1 = jobId)).map Prod.snd

/-! ### Loader decoding (`loader.py`) -/

/-- A raw byte. -/
abbrev Byte := Fin 256

/-- The codecs tried by `_read_file` (`ENCODINGS` in `loader.py`).
`windows-1251` is an alias of `cp1251` in Python. -/
inductive PyEncoding where
  | utf8
  | cp1251
  | windows1251
  | utf16
  | latin1
  deriving DecidableEq, Repr

/-- `ENCODINGS = ("utf-8", "cp1251", "windows-1251", "utf-16", "latin-1")`. -/
def ENCODINGS : List PyEncoding :=
  [.utf8, .cp1251, .windows1251, .utf16, .latin1]

/-- Whether a byte is a UTF-8 continuation byte (`0x80..0xBF`). -/
def isCont (b : Byte) : Bool :=
  0x80 ≤ b.val && b.val ≤ 0xBF

/-- Strict UTF-8 decoding (RFC 3629: overlongs and surrogates rejected), with
fuel; `fuel = bytes.length` always suffices since every step consumes at least
one byte. -/
def utf8DecodeAux : Nat → List Byte → Option (List Char)
  | _, [] => some []
  | 0, _ :: _ => none
  | fuel + 1, b :: rest =>
    if b.val < 0x80 then
      (utf8DecodeAux fuel rest).map (fun cs => Char.ofNat b.val :: cs)
    else if 0xC2 ≤ b.val ∧ b.val ≤ 0xDF then
      match rest with
      | b2 :: rest2 =>
        if isCont b2 then
          (utf8DecodeAux fuel rest2).map
            (fun cs => Char.ofNat ((b.val - 0xC0) * 64 + (b2.val - 0x80)) :: cs)
        else none
      | [] => none
    else if 0xE0 ≤ b.val ∧ b.val ≤ 0xEF then
      match rest with
      | b2 :: b3 :: rest3 =>
        if (isCont b2 && isCont b3) &&
            (decide (b.val = 0xE0) → decide (0xA0 ≤ b2.val)) &&
            (decide (b.val = 0xED) → decide (b2.val ≤ 0x9F)) then
          (utf8DecodeAux fuel rest3).map
            (fun cs =>
              Char.ofNat ((b.val - 0xE0) * 4096 + (b2.val - 0x80) * 64 + (b3.val - 0x80)) :: cs)
        else none
      | _ => none
    else if 0xF0 ≤ b.val ∧ b.val ≤ 0xF4 then
      match rest with
      | b2 :: b3 :: b4 :: rest4 =>
        if (isCont b2 && isCont b3 && isCont b4) &&
            (decide (b.val = 0xF0) → decide (0x90 ≤ b2.val)) &&
            (decide (b.val = 0xF4) → decide (b2.val ≤ 0x8F)) then
          (utf8DecodeAux fuel rest4).map
            (fun cs =>
              Char.ofNat ((b.val - 0xF0) * 262144 + (b2.val - 0x80) * 4096 +
                (b3.val - 0x80) * 64 + (b4.val - 0x80)) :: cs)
        else none
      | _ => none
    else none

/-- Python `bytes.decode("utf-8")`. -/
def utf8Decode (bytes : List Byte) : Option (List Char) :=
  utf8DecodeAux bytes.length bytes

/-- Python `bytes.decode("cp1251")`: every byte is assigned except `0x98`,
the single undefined position of the codepage.  ASCII bytes map to
themselves; high bytes are mapped injectively into a private-use block: the
exact glyphs of the codepage are irrelevant to every claim (only definedness
matters), and no high byte maps to a control character. -/
def cp1251Decode (bytes : List Byte) : Option (List Char) :=
  if bytes.any (fun b => b.val = 0x98) then none
  else some (bytes.map (fun b =>
    if b.val < 0x80 then Char.ofNat b.val else Char.ofNat (0xE000 + b.val)))

/-- Combine UTF-16 code units, rejecting unpaired surrogates (fueled; each
step consumes at least one unit). -/
def utf16Combine : Nat → List Nat → Option (List Char)
  | _, [] => some []
  | 0, _ :: _ => none
  | fuel + 1, u :: rest =>
    if u < 0xD800 ∨ 0xE000 ≤ u then
      (utf16Combine fuel rest).map (fun cs => Char.ofNat u :: cs)
    else if u ≤ 0xDBFF then
      match rest with
      | u2 :: rest2 =>
        if 0xDC00 ≤ u2 ∧ u2 ≤ 0xDFFF then
          (utf16Combine fuel rest2).map
            (fun cs => Char.ofNat (0x10000 + (u - 0xD800) * 1024 + (u2 - 0xDC00)) :: cs)
        else none
      | [] => none
    else none

/-- Group bytes into little- or big-endian 16-bit units; odd trailing bytes
are a decode error (fueled; each step consumes two bytes). -/
def utf16Units : Nat → Bool → List Byte → Option (List Nat)
  | _, _, [] => some []
  | 0, _, _ :: _ => none
  | fuel + 1, le, b1 :: b2 :: rest =>
    (utf16Units fuel le rest).map
      (fun us => (if le then b2.val * 256 + b1.val else b1.val * 256 + b2.val) :: us)
  | _ + 1, _, [_] => none

/-- Python `bytes.decode("utf-16")`: honour a BOM when present, default to
little-endian otherwise. -/
def utf16Decode (bytes : List Byte) : Option (List Char) :=
  match bytes with
  | b1 :: b2 :: rest =>
    if b1.val = 0xFF ∧ b2.val = 0xFE then
      (utf16Units rest.length true rest).bind (fun us => utf16Combine us.length us)
    else if b1.val = 0xFE ∧ b2.val = 0xFF then
      (utf16Units rest.length false rest).bind (fun us => utf16Combine us.length us)
    else (utf16Units bytes.length true bytes).bind (fun us => utf16Combine us.length us)
  | _ => (utf16Units bytes.length true bytes).bind (fun us => utf16Combine us.length us)

/-- Python `bytes.decode("latin-1")`: total, every byte maps to `U+00XX`. -/
def latin1Decode (bytes : List Byte) : Option (List Char) :=
  some (bytes.map (fun b => Char.ofNat b.val))

/-- Dispatch of `path.read_text(encoding=...)` decoding per codec. -/
def pyDecode : PyEncoding → List Byte → Option (List Char)
  | .utf8, bytes => utf8Decode bytes
  | .cp1251, bytes => cp1251Decode bytes
  | .windows1251, bytes => cp1251Decode bytes
  | .utf16, bytes => utf16Decode bytes
  | .latin1, bytes => latin1Decode bytes

/-- First pass of the normalisation: `text.replace("\r\n", "\n")`
(left-to-right, non-overlapping). -/
def replaceCRLF : List Char → List Char
  | [] => []
  | '\r' :: '\n' :: rest => '\n' :: replaceCRLF rest
  | c :: rest => c :: replaceCRLF rest

/-- `text.replace("\r\n", "\n").replace("\r", "\n")` from `_read_file`. -/
def pyNormalizeNewlines (l : List Char) : List Char :=
  (replaceCRLF l).map (fun c => if c = '\r' then '\n' else c)

/-- The encoding loop of `_read_file`: first codec that decodes wins. -/
def tryEncodings (bytes : List Byte) : Option (List Char) :=
  ENCODINGS.findSome? (fun e => pyDecode e bytes)

/-- Python `bytes.decode("utf-8", errors="ignore")`, the fallback branch of
`_read_file`: total decoding that drops undecodable input and continues.  The
C10 theorem proves this branch unreachable, so only totality of this function
is ever relied upon. -/
def utf8DecodeIgnore : Nat → List Byte → List Char
  | _, [] => []
  | 0, _ :: _ => []
  | fuel + 1, b :: rest =>
    if b.val < 0x80 then Char.ofNat b.val :: utf8DecodeIgnore fuel rest
    else
      match utf8DecodeAux 1 (List.take 4 (b :: rest)) with
      | some cs => cs ++ utf8DecodeIgnore fuel (List.drop 3 rest)
      | none =>
        match utf8DecodeAux 1 (List.take 3 (b :: rest)) with
        | some cs => cs ++ utf8DecodeIgnore fuel (List.drop 2 rest)
        | none =>
          match utf8DecodeAux 1 (List.take 2 (b :: rest)) with
          | some cs => cs ++ utf8DecodeIgnore fuel (List.drop 1 rest)
          | none => utf8DecodeIgnore fuel rest

/-- `_read_file` from `loader.py`, from the raw bytes of the file: try the
encoding list, fall back to ignore-errors UTF-8, normalise line endings. -/
def readFileFromBytes (bytes : List Byte) : List Char :=
  match tryEncodings bytes with
  | some t => pyNormalizeNewlines t
  | none => pyNormalizeNewlines (utf8DecodeIgnore bytes.length bytes)

/-- The Tiny Catalog scenario input: `Catalogs/Contacts/ObjectModule.bsl`
whose whole content is the single line
`Процедура Hello() Экспорт КонецПроцедуры`. -/
def c6doc : LoadedDocument :=
  { rel_path := "Catalogs/Contacts/ObjectModule.bsl", extension := ".bsl",
    content := "Процедура Hello() Экспорт КонецПроцедуры".toList }

/-! ### XML model (`xml.etree.ElementTree` consumed by `extractors.py`) -/

/-- An XML element as consumed by the extractors: tag, attributes, the text
directly following the opening tag (`.text`), and child elements in document
order. -/
inductive XNode where
  | elem (tag : String) (attrs : List (String × String)) (text : Option String)
      (children : List XNode)

/-- The element tag. -/
def XNode.tag : XNode → String
  | .elem t _ _ _ => t

/-- The element `.text`. -/
def XNode.text : XNode → Option String
  | .elem _ _ t _ => t

/-- `element.get(name)`. -/
def XNode.attr (e : XNode) (name : String) : Option String :=
  match e with
  | .elem _ attrs _ _ => (attrs.find? (fun a => a.1 = name)).map Prod.snd

/-- The direct children (`for child in element`). -/
def XNode.children : XNode → List XNode
  | .elem _ _ _ cs => cs

/-- `element.iter()`: the element itself and all descendants in document
order. -/
def XNode.iterAll : XNode → List XNode
  | .elem t a x cs => .elem t a x cs :: cs.attach.flatMap (fun c => XNode.iterAll c.1)
decreasing_by
  have h := List.sizeOf_lt_of_mem c.2
  simp only [XNode.elem.sizeOf_spec] at *
  omega

/-- XML name characters for the simplified parser. -/
def isXmlNameChar (c : Char) : Bool :=
  !pyIsSpace c && c ≠ '>' && c ≠ '/' && c ≠ '=' && c ≠ '<' && c ≠ '?' && c ≠ '!'

/-- Attribute list parser (fuelled). -/
def parseAttrsAux : Nat → List Char → List (String × String) × List Char
  | 0, l => ([], l)
  | fuel + 1, l =>
    let l1 := l.dropWhile pyIsSpace
    match l1 with
    | [] => ([], [])
    | '>' :: _ => ([], l1)
    | '/' :: _ => ([], l1)
    | '?' :: _ => ([], l1)
    | _ =>
      let name := l1.takeWhile isXmlNameChar
      if name.isEmpty then ([], l1)
      else
        let l2 := (l1.drop name.length).dropWhile pyIsSpace
        match l2 with
        | '=' :: l3 =>
          let l4 := l3.dropWhile pyIsSpace
          match l4 with
          | q :: l5 =>
            if q = '"' ∨ q = '\'' then
              let v := l5.takeWhile (fun c => c ≠ q)
              let l6 := (l5.drop v.length).drop 1
              let r := parseAttrsAux fuel l6
              ((String.mk name, String.mk v) :: r.1, r.2)
            else ([], l4)
          | [] => ([], [])
        | _ => ([], l2)

mutual

/-- Parse one element at the head of the input (fuelled recursive-descent
model of `ET.fromstring`; well-formed documents of the repository parse as
ElementTree would, malformed input yields `none` as `ET.ParseError` does). -/
def parseXmlAux : Nat → List Char → Option (XNode × List Char)
  | 0, _ => none
  | fuel + 1, l =>
    match l with
    | '<' :: l1 =>
      let name := l1.takeWhile isXmlNameChar
      if name.isEmpty then none
      else
        let r := parseAttrsAux (fuel + 1) (l1.drop name.length)
        match r.2 with
        | '/' :: '>' :: l3 => some (.elem (String.mk name) r.1 none [], l3)
        | '>' :: l3 =>
          let txt := l3.takeWhile (fun c => c ≠ '<')
          let l4 := l3.drop txt.length
          match parseChildrenAux fuel l4 with
          | some (children, l5) =>
            some (.elem (String.mk name) r.1
              (if txt.isEmpty then none else some (String.mk txt)) children, l5)
          | none => none
        | _ => none
    | _ => none

/-- Parse sibling elements up to and including the enclosing closing tag. -/
def parseChildrenAux : Nat → List Char → Option (List XNode × List Char)
  | 0, _ => none
  | fuel + 1, l =>
    match l with
    | '<' :: '/' :: l1 =>
      match l1.dropWhile (fun c => c ≠ '>') with
      | '>' :: l3 => some ([], l3)
      | _ => none
    | '<' :: '?' :: l1 =>
      match l1.dropWhile (fun c => c ≠ '>') with
      | '>' :: l3 => parseChildrenAux fuel (l3.dropWhile (fun c => c ≠ '<'))
      | _ => none
    | '<' :: '!' :: l1 =>
      match l1.dropWhile (fun c => c ≠ '>') with
      | '>' :: l3 => parseChildrenAux fuel (l3.dropWhile (fun c => c ≠ '<'))
      | _ => none
    | '<' :: _ =>
      match parseXmlAux fuel l with
      | some (child, l2) =>
        let l3 := l2.dropWhile (fun c => c ≠ '<')
        match parseChildrenAux fuel l3 with
        | some (siblings, l4) => some (child :: siblings, l4)
        | none => none
      | none => none
    | [] => none
    | _ :: t => parseChildrenAux fuel t

end

/-- Skip byte-order mark, whitespace, XML prolog and comments before the root
element. -/
def skipXmlPre : Nat → List Char → List Char
  | 0, l => l
  | fuel + 1, l =>
    let l1 := l.dropWhile (fun c => pyIsSpace c || c = '\uFEFF')
    match l1 with
    | '<' :: '?' :: rest =>
      match rest.dropWhile (fun c => c ≠ '>') with
      | '>' :: l3 => skipXmlPre fuel l3
      | _ => l1
    | '<' :: '!' :: rest =>
      match rest.dropWhile (fun c => c ≠ '>') with
      | '>' :: l3 => skipXmlPre fuel l3
      | _ => l1
    | _ => l1

/-- `ET.fromstring` model: parse the root element, `none` on parse error. -/
def parseXml (content : List Char) : Option XNode :=
  (parseXmlAux (content.length * 2 + 4) (skipXmlPre content.length content)).map Prod.fst

/-- `_local_name`: `tag.split("}", 1)[1] if "}" in tag else tag`. -/
def joinChar (sep : Char) : List String → String
  | [] => ""
  | [x] => x
  | x :: rest => x ++ String.mk [sep] ++ joinChar sep rest

/-- `_local_name` from `extractors.py`. -/
def localName (tag : String) : String :=
  match splitOnChar '}' tag with
  | [] => tag
  | [_] => tag
  | _ :: rest => joinChar '}' rest

/-- `_text_or_none` from `extractors.py`. -/
def textOrNone (v : Option String) : Option String :=
  match v with
  | none => none
  | some s =>
    let t := String.mk (pyStrip s.toList)
    if t = "" then none else some t

/-- `_first_descendant_text` from `extractors.py`: first descendant (self
included, document order) with a candidate local name and non-empty stripped
text. -/
def firstDescendantText (e : XNode) (candidates : List String) : Option String :=
  e.iterAll.findSome? (fun d =>
    if localName d.tag ∈ candidates then textOrNone d.text else none)

/-- `_build_object_node_from_reference` from `extractors.py`
(`reference.split(".", 1)`; no dot raises `ValueError`). -/
def buildObjectNodeFromReference (reference : String) : Except String GraphNode :=
  match splitOnChar '.' reference with
  | [] => Except.error ("Invalid metadata reference " ++ reference)
  | [_] => Except.error ("Invalid metadata reference " ++ reference)
  | objType :: rest =>
    let objName := joinChar '.' rest
    Except.ok
      { label := "Object", key := [("qualified_name", reference)],
        properties :=
          [ ("qualified_name", PVal.str reference), ("type", PVal.str objType)
          , ("name", PVal.str objName) ] }

/-- `ROLE_ACTION_MAP` from `extractors.py`. -/
def ROLE_ACTION_MAP : List (String × String) :=
  [ ("Read", "Read"), ("Write", "Write"), ("Insert", "Insert"), ("Delete", "Delete")
  , ("Execute", "Execute"), ("View", "View"), ("Post", "Post"), ("Unpost", "Unpost")
  , ("Чтение", "Read"), ("Запись", "Write"), ("Изменение", "Write"), ("Добавление", "Insert")
  , ("Удаление", "Delete"), ("Просмотр", "View"), ("Проведение", "Post")
  , ("ОтменаПроведения", "Unpost") ]

/-- `_normalize_role_action` from `extractors.py`. -/
def normalizeRoleAction (name : String) : String × Option String :=
  let cleaned := String.mk (pyStrip name.toList)
  if cleaned = "" then ("Custom", none)
  else
    match lookupStr ROLE_ACTION_MAP cleaned with
    | some m => (m, none)
    | none =>
      match lookupStr ROLE_ACTION_MAP (pyCapitalize cleaned) with
      | some m => (m, none)
      | none =>
        match lookupStr ROLE_ACTION_MAP (pyUpperStr cleaned) with
        | some m => (m, none)
        | none => ("Custom", some cleaned)

/-- `_extract_role_actions` from `extractors.py` (document-order recursion
over the children). -/
def extractRoleActions : XNode → List (String × Option String)
  | .elem _ _ _ children =>
    children.attach.flatMap (fun child =>
      let lname := localName child.1.tag
      let text := textOrNone child.1.text
      (if (pyLowerStr lname = "right" || pyLowerStr lname = "value") && text.isSome then
        [normalizeRoleAction (text.getD "")]
      else if (lookupStr ROLE_ACTION_MAP lname).isSome && text.isSome &&
          (pyLowerStr (text.getD "") = "true" || pyLowerStr (text.getD "") = "1") then
        [normalizeRoleAction lname]
      else []) ++ extractRoleActions child.1)
decreasing_by
  have h := List.sizeOf_lt_of_mem child.2
  simp only [XNode.elem.sizeOf_spec] at *
  omega

/-- First-occurrence deduplication, modelling the membership behaviour of the
Python `set` comprehension over `(action, extra)` pairs (set iteration order
is interpreter-dependent; every consumer below is order-insensitive up to the
set of emitted nodes and edges, and the claims compare sets). -/
def dedupPairs (l : List (String × Option String)) : List (String × Option String) :=
  l.foldl (fun acc x => if x ∈ acc then acc else acc ++ [x]) []

/-- First-occurrence deduplication of strings (`set` of method names; the
source then iterates `sorted(methods)`). -/
def dedupStrings (l : List String) : List String :=
  l.foldl (fun acc x => if x ∈ acc then acc else acc ++ [x]) []

/-- Insertion sort modelling Python `sorted` on strings. -/
def insertString (a : String) : List String → List String
  | [] => [a]
  | b :: rest => if a ≤ b then a :: b :: rest else b :: insertString a rest

/-- `sorted(methods)`. -/
def sortStrings : List String → List String
  | [] => []
  | a :: rest => insertString a (sortStrings rest)

/-- Lookup in the `object_nodes` dict of `_extract_role_xml`. -/
def lookupObjNode (m : List (String × GraphNode)) (k : String) : Option GraphNode :=
  (m.find? (fun e => e.1 = k)).map Prod.snd

/-- One `rights_block` iteration of `_extract_role_xml`. -/
def roleBlockStep (roleName : String) (roleKey : NodeKey)
    (acc : List GraphNode × List GraphEdge × List (String × GraphNode)) (block : XNode) :
    Except String (List GraphNode × List GraphEdge × List (String × GraphNode)) := do
  let (nodes, edges, objDict) := acc
  match firstDescendantText block ["Object", "MetadataObject"] with
  | none => return acc
  | some reference =>
    let (objectNode, nodes, objDict) ←
      match lookupObjNode objDict reference with
      | some objectNode => pure (objectNode, nodes, objDict)
      | none => do
        let objectNode ← buildObjectNodeFromReference reference
        pure (objectNode, nodes ++ [objectNode], objDict ++ [(reference, objectNode)])
    let objectKey := objectNode.nodeKey
    let edges := edges ++ [mkEdge roleKey "ROLE_HAS_ACCESS_TO" objectKey]
    let condition := firstDescendantText block ["Condition", "Filter", "Expression"]
    let detailsText := firstDescendantText block
      ["Comment", "Note", "Details", "Комментарий", "Примечание"]
    let rawActions0 := dedupPairs (extractRoleActions block)
    let rawActions := if rawActions0.isEmpty then [("Custom", detailsText)] else rawActions0
    let r := rawActions.foldl (fun (acc2 : List GraphNode × List GraphEdge) action =>
      let normalizedDetails :=
        match action.2 with
        | some e => if e = "" then detailsText else some e
        | none => detailsText
      let arGuid := stable_guid ("role:" ++ roleName ++ ":" ++ reference ++ ":" ++ action.1 ++
        ":" ++ condition.getD "" ++ ":" ++ normalizedDetails.getD "")
      let props := [("guid", PVal.str arGuid), ("action", PVal.str action.1)] ++
        (match condition with
         | some c => [("condition", PVal.str c)]
         | none => []) ++
        (match normalizedDetails with
         | some d => [("details", PVal.str d)]
         | none => [])
      let accessNode : GraphNode := { label := "AccessRight", key := [("guid", arGuid)], properties := props }
      ( acc2.1 ++ [accessNode]
      , acc2.2 ++ [mkEdge roleKey "GRANTS" accessNode.nodeKey,
          mkEdge accessNode.nodeKey "PERMITS" objectKey] )) (nodes, edges)
    return (r.1, r.2, objDict)

/-- `_extract_role_xml` from `extractors.py`. -/
def extract_role_xml (doc : LoadedDocument) : Except String ExtractionResult := do
  match parseXml doc.content with
  | none => Except.error ("Invalid XML in " ++ doc.rel_path)
  | some root =>
    let roleName? :=
      match firstDescendantText root ["Name"] with
      | some n => some n
      | none =>
        let parts := pathParts doc.rel_path
        if parts.isEmpty then none
        else
          let candidate := parts.getLastD ""
          if List.isSuffixOf ".xml".toList (pyLower candidate.toList) ∧ parts.length ≥ 2 then
            some (parts.getD (parts.length - 2) "")
          else some (pyStem candidate)
    match roleName? with
    | none => Except.error ("Unable to determine role name for " ++ doc.rel_path)
    | some roleName =>
      let roleNode : GraphNode :=
        { label := "Role", key := [("name", roleName)], properties := [("name", PVal.str roleName)] }
      let roleKey := roleNode.nodeKey
      let blocks := root.iterAll.filter
        (fun b => localName b.tag = "ObjectRight" || localName b.tag = "Rights")
      let r ← blocks.foldlM (roleBlockStep roleName roleKey) ([roleNode], [], [])
      let tu ← mkTextUnitNoLocator doc.content doc.rel_path roleKey
      return { nodes := r.1, edges := r.2.1, text_units := [tu] }

/-- One `URLTemplate` iteration of `_extract_http_service_xml`. -/
def httpTemplateStep (root : XNode) (serviceKey : NodeKey)
    (acc : List GraphNode × List GraphEdge) (templateElem : XNode) :
    List GraphNode × List GraphEdge :=
  let templateValue :=
    match textOrNone (templateElem.attr "template") with
    | some v => some v
    | none =>
      match firstDescendantText templateElem ["Template", "Value"] with
      | some v => some v
      | none => textOrNone templateElem.text
  match templateValue with
  | none => acc
  | some tv =>
    let templateNode : GraphNode :=
      { label := "URLTemplate", key := [("template", tv)], properties := [("template", PVal.str tv)] }
    let templateKey := templateNode.nodeKey
    let nodes := acc.1 ++ [templateNode]
    let edges := acc.2 ++ [mkEdge serviceKey "HAS_URL_TEMPLATE" templateKey]
    let methods0 := templateElem.iterAll.filterMap (fun m =>
      if localName m.tag = "HTTPMethod" ∨ localName m.tag = "Method" ∨ localName m.tag = "Verb" then
        (textOrNone m.text).map pyUpperStr
      else none)
    let methods1 :=
      if methods0.isEmpty then
        match firstDescendantText root ["HTTPMethod", "Method"] with
        | some inherited => [pyUpperStr inherited]
        | none => []
      else methods0
    let methods := sortStrings (dedupStrings methods1)
    methods.foldl (fun (acc2 : List GraphNode × List GraphEdge) method =>
      if method ∉ ["GET", "POST", "PUT", "DELETE", "PATCH", "HEAD", "OPTIONS"] then acc2
      else
        let methodNode : GraphNode :=
          { label := "HTTPMethod", key := [("method", method)], properties := [("method", PVal.str method)] }
        ( acc2.1 ++ [methodNode]
        , acc2.2 ++ [mkEdge templateKey "HAS_URL_METHOD" methodNode.nodeKey] )) (nodes, edges)

/-- `_extract_http_service_xml` from `extractors.py`. -/
def extract_http_service_xml (doc : LoadedDocument) : Except String ExtractionResult := do
  match parseXml doc.content with
  | none => Except.error ("Invalid XML in " ++ doc.rel_path)
  | some root =>
    let serviceName? :=
      match firstDescendantText root ["Name"] with
      | some n => some n
      | none =>
        let parts := pathParts doc.rel_path
        if parts.isEmpty then none else some (pyStem (parts.getLastD ""))
    match serviceName? with
    | none => Except.error ("Unable to determine HTTP service name for " ++ doc.rel_path)
    | some serviceName =>
      let serviceNode : GraphNode :=
        { label := "HTTPService", key := [("name", serviceName)],
          properties := [("name", PVal.str serviceName)] }
      let serviceKey := serviceNode.nodeKey
      let (nodes0, edges0) :=
        match firstDescendantText root ["ConfigurationName", "Configuration"] with
        | some configurationName =>
          let configNode : GraphNode :=
            { label := "Configuration", key := [("name", configurationName)],
              properties := [("name", PVal.str configurationName)] }
          ([serviceNode, configNode], [mkEdge configNode.nodeKey "HAS_HTTP_SERVICE" serviceKey])
        | none => ([serviceNode], [])
      let templates := root.iterAll.filter (fun t => localName t.tag = "URLTemplate")
      let r := templates.foldl (httpTemplateStep root serviceKey) (nodes0, edges0)
      let tu ← mkTextUnitNoLocator doc.content doc.rel_path serviceKey
      return { nodes := r.1, edges := r.2, text_units := [tu] }

/-- One document-reference iteration of `_extract_document_journal_xml`. -/
def journalDocStep (journalKey : NodeKey)
    (acc : List GraphNode × List GraphEdge × List String) (docElem : XNode) :
    Except String (List GraphNode × List GraphEdge × List String) := do
  let (nodes, edges, seen) := acc
  match textOrNone docElem.text with
  | none => return acc
  | some docRef =>
    if docRef ∈ seen then return acc
    else
      let objectNode ← buildObjectNodeFromReference docRef
      let objectKey := objectNode.nodeKey
      return ( nodes ++ [objectNode]
             , edges ++ [mkEdge journalKey "CONTAINS" objectKey,
                 mkEdge objectKey "JOURNALED_IN" journalKey]
             , seen ++ [docRef] )

/-- `_extract_document_journal_xml` from `extractors.py`. -/
def extract_document_journal_xml (doc : LoadedDocument) : Except String ExtractionResult := do
  match parseXml doc.content with
  | none => Except.error ("Invalid XML in " ++ doc.rel_path)
  | some root =>
    let journalName? :=
      match firstDescendantText root ["Name"] with
      | some n => some n
      | none =>
        let parts := pathParts doc.rel_path
        if parts.isEmpty then none else some (pyStem (parts.getLastD ""))
    match journalName? with
    | none => Except.error ("Unable to determine document journal name for " ++ doc.rel_path)
    | some journalName =>
      let journalNode : GraphNode :=
        { label := "DocumentJournal", key := [("name", journalName)],
          properties := [("name", PVal.str journalName)] }
      let journalKey := journalNode.nodeKey
      let docElems := root.iterAll.filter
        (fun d => localName d.tag = "Document" || localName d.tag = "MetadataObject")
      let r ← docElems.foldlM (journalDocStep journalKey) ([journalNode], [], [])
      let tu ← mkTextUnitNoLocator doc.content doc.rel_path journalKey
      return { nodes := r.1, edges := r.2.1, text_units := [tu] }

/-- `_extract_generic_xml` from `extractors.py`. -/
def extract_generic_xml (doc : LoadedDocument) : Except String ExtractionResult :=
  let documentNode : GraphNode :=
    { label := "Document", key := [("path", doc.rel_path)],
      properties := [("path", PVal.str doc.rel_path)] }
  match mkTextUnitNoLocator doc.content doc.rel_path documentNode.nodeKey with
  | Except.error e => Except.error e
  | Except.ok tu =>
    Except.ok { nodes := [documentNode], edges := [], text_units := [tu] }

/-- `_extract_form_xml` from `extractors.py`. -/
def extract_form_xml (doc : LoadedDocument) : Except String ExtractionResult :=
  let r := buildObjectAndModule doc
  let (moduleNode, _moduleKey, objectNode, edges, ownerQn) := r
  match objectNode with
  | none => Except.error ("Unable to determine owning object for form " ++ doc.rel_path)
  | some obj =>
    let formGuid := stable_guid (doc.rel_path ++ ":form")
    let formNode : GraphNode :=
      { label := "Form", key := [("guid", formGuid)],
        properties :=
          [ ("name", PVal.str (pyStem doc.rel_path)), ("guid", PVal.str formGuid)
          , ("owner_qn", (ownerQn.map PVal.str).getD PVal.null) ] }
    match mkTextUnitNoLocator doc.content doc.rel_path formNode.nodeKey with
    | Except.error e => Except.error e
    | Except.ok tu =>
      Except.ok
        { nodes := [moduleNode, obj, formNode]
        , edges := edges ++ [mkEdge obj.nodeKey "HAS_FORM" formNode.nodeKey]
        , text_units := [tu] }

/-- `_extract_text` (also used for `.html`/`.htm` by `_extract_html`). -/
def extract_text (doc : LoadedDocument) : Except String ExtractionResult :=
  let r := buildObjectAndModule doc
  let (moduleNode, moduleKey, objectNode, edges, _) := r
  let nodes := [moduleNode] ++ (match objectNode with | some o => [o] | none => [])
  match mkTextUnitNoLocator doc.content doc.rel_path moduleKey with
  | Except.error e => Except.error e
  | Except.ok tu =>
    Except.ok { nodes := nodes, edges := edges, text_units := [tu] }

/-- `_looks_like_form_xml` from `extractors.py`. -/
def looksLikeFormXml (parts : List String) : Bool :=
  let lowered := parts.map pyLowerStr
  lowered.contains "forms" ||
    (lowered.getLast? = some "form.xml") ||
    (match lowered.reverse with
     | a :: b :: _ => a = "form.xml" && b = "ext"
     | _ => false)

/-- `_extract_xml_by_path` from `extractors.py`. -/
def extract_xml_by_path (doc : LoadedDocument) : Except String ExtractionResult :=
  let parts := pathParts doc.rel_path
  if looksLikeFormXml parts then extract_form_xml doc
  else
    match parts with
    | "Roles" :: _ => extract_role_xml doc
    | "HTTPServices" :: _ => extract_http_service_xml doc
    | "DocumentJournals" :: _ => extract_document_journal_xml doc
    | _ => extract_generic_xml doc

/-- `extract_document` from `extractors.py`, with the module-global
`_routine_bodies` map threaded explicitly: only the `.bsl` branch touches it
(and it clears it on entry); every other extractor neither reads nor writes
it. -/
def extract_document (bodies : List (NodeKey × List Char)) (doc : LoadedDocument) :
    Except String ExtractionResult × List (NodeKey × List Char) :=
  if doc.extension = ".bsl" then
    extract_bsl doc
  else if doc.extension = ".html" ∨ doc.extension = ".htm" then
    (extract_text doc, bodies)
  else if doc.extension = ".xml" then
    (extract_xml_by_path doc, bodies)
  else if doc.extension = ".txt" then
    (extract_text doc, bodies)
  else
    (extract_text doc, bodies)

/-- One iteration of the per-document extraction loop: record the outcome,
thread the global `_routine_bodies` state. -/
def extractStep (acc : List (Except String ExtractionResult) × List (NodeKey × List Char))
    (doc : LoadedDocument) :
    List (Except String ExtractionResult) × List (NodeKey × List Char) :=
  let r := extract_document acc.2 doc
  (acc.1 ++ [r.1], r.2)

/-- Run Extract over a document list in order starting from a given
`_routine_bodies` state, then Chunk over all extracted text units (failed
documents contribute none, as in the fail-soft pipeline loop). -/
def runExtractChunk (bodies : List (NodeKey × List Char)) (docs : List LoadedDocument) :
    (List (Except String ExtractionResult) × List Chunk) × List (NodeKey × List Char) :=
  let res := docs.foldl extractStep ([], bodies)
  let texts := res.1.flatMap (fun r =>
    match r with
    | Except.ok ex => ex.text_units
    | Except.error _ => [])
  ((res.1, chunk_text_units texts), res.2)

/-- Node keys of the successful extraction outcomes. -/
def outNodeKeys (rs : List (Except String ExtractionResult)) : List NodeKey :=
  rs.flatMap (fun r =>
    match r with
    | Except.ok ex => ex.nodes.map GraphNode.nodeKey
    | Except.error _ => [])

/-- Edge triples `(start, type, end)` of the successful outcomes. -/
def outEdgeTriples (rs : List (Except String ExtractionResult)) :
    List (Option NodeKey × String × Option NodeKey) :=
  rs.flatMap (fun r =>
    match r with
    | Except.ok ex => ex.edges.map (fun e => (e.start, e.type, e.«end»))
    | Except.error _ => [])

/-- Chunk ids of a chunk list. -/
def outChunkIds (chunks : List Chunk) : List String :=
  chunks.map Chunk.chunkId

/-! ### Queue and worker recovery (`queue.py`, `worker.py`) -/

/-- `IndexJob` from `queue.py`. -/
structure IndexJob where
  job_id : String
  collection : String
  raw_path : String
  deriving DecidableEq, Repr

/-- Modelled from the spec: `JobQueue.list_job_ids` is called by
`Worker._recover_incomplete_jobs` but its definition is absent from
`queue.py` under `src/`; the spec states it "returns the set of queued ids". -/
def listJobIds (queue : List IndexJob) : List String :=
  queue.map IndexJob.job_id

/-- `<workspace>/<collection>/<job_id>/raw`, the raw directory path formed by
the recovery loop. -/
def rawPathOf (workspaceDir collection jobId : String) : String :=
  workspaceDir ++ "/" ++ collection ++ "/" ++ jobId ++ "/raw"

/-- One iteration of the recovery loop of `Worker._recover_incomplete_jobs`
(`worker.py` lines 49-75), over the accumulated
`(job store, queue, queue_job_ids)`.  `fs` is the file-system oracle for
`raw_path.is_dir()`. -/
def recoverStep (workspaceDir : String) (fs : String → Bool) (now : Nat)
    (acc : StoreState × List IndexJob × List String) (state : JobState) :
    StoreState × List IndexJob × List String :=
  if state.status ≠ JobStatus.PENDING ∧ state.status ≠ JobStatus.RUNNING then acc
  else if state.job_id ∈ acc.2.2 then acc
  else if !fs (rawPathOf workspaceDir state.collection state.job_id) then acc
  else
    ( (jobStoreSave now acc.1
        { state with status := JobStatus.PENDING, started_at := none, finished_at := none }).1
    , acc.2.1 ++
        [{ job_id := state.job_id, collection := state.collection
         , raw_path := rawPathOf workspaceDir state.collection state.job_id }]
    , acc.2.2 ++ [state.job_id] )

/-- `Worker._recover_incomplete_jobs`: iterate the job-store states (the
iteration primitive `JobStore.iter_states` is likewise modelled from the
spec: it "scans the prefix and yields all known states", here given as the
`states` list). -/
def recoverIncompleteJobs (workspaceDir : String) (fs : String → Bool) (now : Nat)
    (states : List JobState) (store0 : StoreState) (queue0 : List IndexJob) :
    StoreState × List IndexJob × List String :=
  states.foldl (recoverStep workspaceDir fs now) (store0, queue0, listJobIds queue0)

/-- Concrete job state for the recovery witness. -/
def c1state : JobState :=
  { job_id := "job1", collection := "col", status := JobStatus.RUNNING
  , created_at := 1, updated_at := 2, started_at := some 5 }

/-! ### Upload-session protocol (`main.py`) -/

/-- `ALLOWED_EXTENSIONS` from `loader.py`. -/
def ALLOWED_EXTENSIONS : List String :=
  [".bsl", ".xml", ".html", ".htm", ".txt"]

/-- A character admitted by `COLLECTION_PATTERN = ^[A-Za-z0-9_-]{1,100}$`. -/
def isCollectionChar (c : Char) : Bool :=
  ('A' ≤ c && c ≤ 'Z') || ('a' ≤ c && c ≤ 'z') || ('0' ≤ c && c ≤ '9') || c = '_' || c = '-'

/-- `_normalize_collection` from `main.py`. -/
def normalizeCollection (value : String) : Except String String :=
  let v := String.mk (pyStrip value.toList)
  if 1 ≤ v.toList.length ∧ v.toList.length ≤ 100 ∧ v.toList.all isCollectionChar then
    Except.ok v
  else Except.error "Invalid collection name."

/-- `SESSION_ID_PATTERN = ^[a-f0-9]{32}$`. -/
def validSessionId (s : String) : Bool :=
  s.toList.length = 32 &&
    s.toList.all (fun c => ('0' ≤ c && c ≤ '9') || ('a' ≤ c && c ≤ 'f'))

/-- `_safe_relative_path` from `main.py`: backslashes to slashes, strip
leading slashes, drop empty and dot components, reject `..` and empty names. -/
def safeRelativePath (name : String) : Except String String :=
  let sanitized := (name.toList.map (fun c => if c = '\\' then '/' else c)).dropWhile (fun c => c = '/')
  let parts := (splitOnCharAux '/' sanitized []).map String.mk
  let parts := parts.filter (fun p => p != "" && p != ".")
  if parts.any (fun p => p = "..") then Except.error "Invalid relative path."
  else if parts.isEmpty then Except.error "Invalid file name."
  else Except.ok (joinChar '/' parts)

/-- The `meta.json` contents of one upload session (section "Upload Session"
of the spec; `_write_session_meta` stamps `updated_at`). -/
structure SessionMeta where
  upload_id : String
  collection : String
  status : String
  created_at : Nat
  updated_at : Nat
  segments : List Nat
  files : List String
  total_files : Nat
  completed_at : Option Nat := none
  deriving DecidableEq, Repr

/-- The state touched by the upload-session endpoints: the (single) session
directory with its meta and `tmp/` files, the raw corpus paths already
present in the workspace, the job store, and the queue. -/
structure UploadWorld where
  sessionExists : Bool
  meta : Option SessionMeta
  tmpFiles : List String
  rawFiles : List String
  store : StoreState
  queue : List IndexJob
  deriving DecidableEq, Repr

/-- `upload_init` from `main.py` (happy I/O path: directory creation and the
meta write succeed).  The session id is the caller-provided `uuid4().hex`
value.  `upload_session_batch_size` and `upload_session_dirname` are absent
from `config.py` under `src/` and irrelevant here. -/
def upload_init (store0 : StoreState) (queue0 : List IndexJob)
    (uploadId collection : String) (now : Nat) : Except String UploadWorld := do
  let coll ← normalizeCollection collection
  if !validSessionId uploadId then Except.error "Failed to generate upload session."
  else
    Except.ok
      { sessionExists := true
      , meta := some
          { upload_id := uploadId, collection := coll, status := "open"
          , created_at := now, updated_at := now, segments := [], files := []
          , total_files := 0 }
      , tmpFiles := [], rawFiles := [], store := store0, queue := queue0 }

/-- The per-file planning loop of `upload_part` (`main.py` lines 142-172):
safe path, duplicate checks against the session and the batch, extension
allow-list, existing-target check. -/
def partPlanStep (existingPaths tmpFiles : List String) (acc : List String)
    (rawName : String) : Except String (List String) := do
  if rawName = "" then Except.error "File name is required."
  else do
    let rel ← safeRelativePath rawName
    if rel ∈ existingPaths ∨ rel ∈ acc then
      Except.error ("Duplicate file path " ++ rel ++ " in upload session.")
    else if pyLowerStr (pySuffix rel) ∉ ALLOWED_EXTENSIONS then
      Except.error ("Extension " ++ pyLowerStr (pySuffix rel) ++ " is not allowed.")
    else if rel ∈ tmpFiles then
      Except.error ("File " ++ rel ++ " already stored in session.")
    else Except.ok (acc ++ [rel])

/-- `upload_part` from `main.py` (streaming the files to `tmp/` succeeds):
returns the new world and the `saved` count.  `batchSize` is the
`upload_session_batch_size` setting, modelled from the spec (the field is
absent from `config.py` under `src/`). -/
def upload_part (batchSize : Nat) (w : UploadWorld) (files : List String) (now : Nat) :
    Except String (UploadWorld × Nat) := do
  if !w.sessionExists then Except.error "Upload session not found."
  else
    match w.meta with
    | none => Except.error "Upload session not found."
    | some meta => do
      if meta.status ≠ "open" then Except.error "Upload session is closed."
      else if files.isEmpty then Except.error "No files were provided."
      else if files.length > batchSize then
        Except.error "Batch size exceeds limit."
      else do
        let planned ← files.foldlM (partPlanStep meta.files w.tmpFiles) []
        let meta' :=
          { meta with
            files := meta.files ++ planned
            segments := meta.segments ++ [planned.length]
            total_files := (meta.files ++ planned).length
            updated_at := now }
        Except.ok
          ( { w with tmpFiles := w.tmpFiles ++ planned, meta := some meta' }
          , planned.length )

/-- The move loop of `upload_complete` (`main.py` lines 254-278): each stored
file must still be in `tmp/` and must not collide with an existing raw
target; a successful move transfers it. -/
def completeMoveStep (rawDir : String)
    (acc : List String × List String × Nat) (rel : String) :
    Except String (List String × List String × Nat) := do
  let (tmp, raw, moved) := acc
  if rel ∉ tmp then Except.error ("Stored file " ++ rel ++ " is missing from session.")
  else if (rawDir ++ "/" ++ rel) ∈ raw then
    Except.error ("Target path " ++ rel ++ " already exists.")
  else Except.ok (tmp.erase rel, raw ++ [rawDir ++ "/" ++ rel], moved + 1)

/-- `upload_complete` from `main.py` (happy I/O path): finalize the meta,
move every stored file into `<workspace>/<collection>/<job_id>/raw`, close
the meta, create and save the `JobState` (with the session record attached to
its stats), enqueue the `IndexJob`, and remove the session directory.
Returns the new world, the job id and the final (closed) meta. -/
def upload_complete (workspaceDir : String) (w : UploadWorld) (jobId : String) (now : Nat) :
    Except String (UploadWorld × String × SessionMeta) := do
  if !w.sessionExists then Except.error "Upload session not found."
  else
    match w.meta with
    | none => Except.error "Upload session not found."
    | some meta => do
      if meta.status ≠ "open" then Except.error "Upload session is not open."
      else if meta.files.isEmpty then Except.error "Upload session has no files."
      else do
        let collection := meta.collection
        let rawDir := workspaceDir ++ "/" ++ collection ++ "/" ++ jobId ++ "/raw"
        let r ← meta.files.foldlM (completeMoveStep rawDir) (w.tmpFiles, w.rawFiles, 0)
        let (tmp', raw', moved) := r
        if moved ≠ meta.files.length then Except.error "Mismatch in moved files count."
        else do
          let meta2 :=
            { meta with
              status := "closed"
              completed_at := some now
              total_files := moved
              updated_at := now }
          let jobState : JobState :=
            { job_id := jobId, collection := collection
            , stats :=
                { total_files := moved
                , session_segments := some meta2.segments
                , session_batches := some meta2.segments.length
                , session_total_files := some meta2.total_files }
            , created_at := now, updated_at := now }
          let store' := (jobStoreSave now w.store jobState).1
          let queue' := w.queue ++ [{ job_id := jobId, collection := collection, raw_path := rawDir }]
          Except.ok
            ( { sessionExists := false, meta := none, tmpFiles := tmp'
              , rawFiles := raw', store := store', queue := queue' }
            , jobId, meta2 )

/-- The C2 round trip at concrete inputs: init, a part of one file, a part
of two files, then complete. -/
def c2Run : Except String (UploadWorld × String × SessionMeta) := do
  let w0 ← upload_init {} [] "0123456789abcdef0123456789abcdef" "col" 1
  let (w1, _) ← upload_part 50 w0 ["a.bsl"] 2
  let (w2, _) ← upload_part 50 w1 ["b.txt", "sub/c.xml"] 3
  upload_complete "/ws" w2 "feedfacefeedfacefeedfacefeedface" 4

/-! ### Pipeline save trajectory (`pipeline.py`, `IndexingPipeline.run`) -/

/-- The environment of one pipeline run: loaded document count, embedding
batch sizes in arrival order, chunk count, and graph totals. -/
structure PipeEnv where
  nDocs : Nat
  batchSizes : List Nat
  nChunks : Nat
  nodesTotal : Nat
  edgesTotal : Nat
  deriving DecidableEq, Repr

/-- How one run ends: normally; by worker-process death after the first
`k + 1` saves (no further snapshot is written); or by an unhandled exception
after the first `k + 1` saves (the error path writes one final snapshot). -/
inductive RunOutcome where
  | completed
  | crashed (k : Nat)
  | failed (k : Nat)
  deriving DecidableEq, Repr

/-- `pipeline.py` lines 35-41: load or create the state, set RUNNING and
`started_at`, clear errors, and replace `stats` by a fresh `JobStats`
preserving only `total_files`. -/
def pipelineInitState (prior : Option JobState) (jobId collection : String) : JobState :=
  let base := prior.getD { job_id := jobId, collection := collection }
  { base with
    status := JobStatus.RUNNING
    started_at := some 0
    errors := []
    stats := { total_files := base.stats.total_files } }

/-- `pipeline.py` line 53: if no prior total is known, record the loaded
document count. -/
def pipelineTotalMut (env : PipeEnv) : JobState → JobState := fun st =>
  { st with stats := { st.stats with total_files := env.nDocs } }

/-- The `finally` block of the per-document loop: `processed_files += 1`. -/
def pipelineDocMut : JobState → JobState := fun st =>
  { st with stats := { st.stats with processed_files := st.stats.processed_files + 1 } }

/-- After chunking: chunk count, phase EMBEDDING, embedded counter reset. -/
def pipelineChunkMut (env : PipeEnv) : JobState → JobState := fun st =>
  { st with stats :=
    { st.stats with vector_chunks := env.nChunks, phase := some "EMBEDDING", embedded_chunks := some 0 } }

/-- Per embedding batch: `embedded_chunks += len(batch)`. -/
def pipelineBatchMut (b : Nat) : JobState → JobState := fun st =>
  { st with stats := { st.stats with embedded_chunks := some (st.stats.embedded_chunks.getD 0 + b) } }

/-- Before the graph write: totals, written counters reset, phase GRAPH_WRITE. -/
def pipelineGraphMut (env : PipeEnv) : JobState → JobState := fun st =>
  { st with stats :=
    { st.stats with graph_nodes_total := some env.nodesTotal, graph_edges_total := some env.edgesTotal, graph_nodes_written := some 0, graph_edges_written := some 0, phase := some "GRAPH_WRITE" } }

/-- After the graph write: written counters reach the totals. -/
def pipelineGraphDoneMut (env : PipeEnv) : JobState → JobState := fun st =>
  { st with stats :=
    { st.stats with graph_nodes_written := some env.nodesTotal, graph_edges_written := some env.edgesTotal } }

/-- Node and edge counts recorded in the declared stats fields. -/
def pipelineCountsMut (env : PipeEnv) : JobState → JobState := fun st =>
  { st with stats := { st.stats with nodes := env.nodesTotal, edges := env.edgesTotal } }

/-- Phase VECTOR_INDEX. -/
def pipelineVecMut : JobState → JobState := fun st =>
  { st with stats := { st.stats with phase := some "VECTOR_INDEX" } }

/-- Phase FINALIZING. -/
def pipelineFinMut : JobState → JobState := fun st =>
  { st with stats := { st.stats with phase := some "FINALIZING" } }

/-- The DONE save: terminal status and finish timestamp. -/
def pipelineDoneMut : JobState → JobState := fun st =>
  { st with status := JobStatus.DONE, finished_at := some 1 }

/-- The in-place stats/state mutations performed between consecutive saves of
a successful run, in program order (`pipeline.py` lines 53-196): the
conditional `total_files` initialisation, one `processed_files` increment per
document (the `finally` block), the chunking save, one `embedded_chunks`
increment per batch, the graph-write saves, the node/edge counts, the
VECTOR_INDEX and FINALIZING phase saves, and the DONE save. -/
def pipelineMutations (preservedZero : Bool) (env : PipeEnv) : List (JobState → JobState) :=
  (if preservedZero then [pipelineTotalMut env] else []) ++
  List.replicate env.nDocs pipelineDocMut ++
  [pipelineChunkMut env] ++
  env.batchSizes.map pipelineBatchMut ++
  [ pipelineGraphMut env, pipelineGraphDoneMut env, pipelineCountsMut env
  , pipelineVecMut, pipelineFinMut, pipelineDoneMut ]

/-- The in-memory states at each `job_store.save(...)` call of one successful
run, in order (the first save happens right after the init reset). -/
def pipelineFullStates (prior : Option JobState) (jobId collection : String)
    (env : PipeEnv) : List JobState :=
  let s0 := pipelineInitState prior jobId collection
  List.scanl (fun st f => f st) s0 (pipelineMutations (s0.stats.total_files = 0) env)

/-- The error path (`pipeline.py` lines 204-212): status ERROR, error
appended, `finished_at` set; counters untouched. -/
def pipelineErrorState (st : JobState) : JobState :=
  { st with
    status := JobStatus.ERROR
    finished_at := some 1
    errors := st.errors ++ [{ message := "unhandled" }] }

/-- The saved-state sequence of one run under a given outcome. -/
def pipelineRunStates (prior : Option JobState) (jobId collection : String)
    (env : PipeEnv) (oc : RunOutcome) : List JobState :=
  let full := pipelineFullStates prior jobId collection env
  match oc with
  | .completed => full
  | .crashed k => full.take (k + 1)
  | .failed k =>
    let kept := full.take (k + 1)
    kept ++ [pipelineErrorState (kept.getLastD (pipelineInitState prior jobId collection))]

/-- `JobStore.save` stamps `updated_at = datetime.utcnow()`; the wall clock
is modelled as a strictly increasing tick sequence. -/
def persistAux (t : Nat) : List JobState → List JobStatePrim
  | [] => []
  | st :: rest => JobState.to_primitive { st with updated_at := t } :: persistAux (t + 1) rest

/-- The persisted snapshot trajectory of a saved-state sequence. -/
def persistTrajectory (t0 : Nat) (l : List JobState) : List JobStatePrim :=
  persistAux (t0 + 1) l

/-- The `processed_files` field of a serialized record. -/
def primProcessed (p : JobStatePrim) : Nat :=
  match (p.stats.find? (fun e => e.1 = "processed_files")).map Prod.snd with
  | some (JVal.num n) => n
  | _ => 0

/-- The C4 counterexample trajectory: a run over one document crashes after
the per-document save, recovery resets the state to PENDING (worker.py lines
70-73), and the re-run starts by resetting `stats`. -/
def c4env : PipeEnv :=
  { nDocs := 1, batchSizes := [], nChunks := 0, nodesTotal := 0, edgesTotal := 0 }

/-- First (crashed) run snapshots. -/
def c4run1 : List JobState :=
  pipelineRunStates none "j1" "c" c4env (.crashed 2)

/-- The recovery save of `worker.py` (status reset, timestamps cleared). -/
def c4recovered : JobState :=
  { c4run1.getLastD (pipelineInitState none "j1" "c") with
    status := JobStatus.PENDING
    started_at := none
    finished_at := none }

/-- The full two-run persisted trajectory for job `j1`. -/
def c4Trajectory : List JobStatePrim :=
  persistTrajectory 0
    (c4run1 ++ [c4recovered] ++ pipelineRunStates (some c4recovered) "j1" "c" c4env .completed)

/-- A concrete text unit for evaluating the chunker. -/
def chunkWitnessUnit : TextUnit :=
  { text := "hola".toList, path := "p", locator := none
    nodeKey := { label := "Routine", key := [("guid", "g1")] } }

def chunkWitnessChunk : Chunk :=
  { chunkId := "uuid5:Routine|(('guid', 'g1'),)||0"
    text := "hola".toList
    path := "p"
    locator := none
    nodeKey := { label := "Routine", key := [("guid", "g1")] } }

/-! ## Theorems -/

theorem pyStrip_length_le (l : List Char) : (pyStrip l).length ≤ l.length := by
  unfold pyStrip
  rw [List.length_reverse]
  refine le_trans (List.dropWhile_sublist _).length_le ?_
  rw [List.length_reverse]
  exact (List.dropWhile_sublist _).length_le

theorem splitLongAux_mem_length :
    ∀ (fuel limit : Nat) (l p : List Char), p ∈ splitLongAux fuel limit l → p.length ≤ limit := by
  intro fuel
  induction fuel with
  | zero => intro limit l p h; simp [splitLongAux] at h
  | succ n ih =>
    intro limit l p h
    match l with
    | [] => simp [splitLongAux] at h
    | c :: rest =>
      simp only [splitLongAux] at h
      rcases List.mem_cons.mp h with h1 | h1
      · subst h1; exact List.length_take_le _ _
      · exact ih limit _ p h1

theorem splitLong_mem_length (limit : Nat) (l p : List Char) (h : p ∈ splitLong limit l) :
    p.length ≤ limit :=
  splitLongAux_mem_length _ limit l p h

theorem assemble_mem_length (target : Nat) :
    ∀ (pieces : List (List Char)) (current : List Char),
      (∀ p ∈ pieces, p.length ≤ target) → current.length ≤ target →
      ∀ s ∈ assemble target pieces current, s.length ≤ target := by
  intro pieces
  induction pieces with
  | nil =>
    intro current _ hc s hs
    unfold assemble at hs
    split at hs
    · simp at hs
    · rw [List.mem_singleton] at hs
      subst hs
      exact le_trans (pyStrip_length_le _) hc
  | cons piece rest ih =>
    intro current hp hc s hs
    unfold assemble at hs
    split at hs
    next hcond =>
      refine ih _ (fun p hp' => hp p (List.mem_cons_of_mem _ hp')) ?_ s hs
      refine le_trans (pyStrip_length_le _) ?_
      have hlen : (current ++ '\n' :: '\n' :: piece).length = current.length + piece.length + 2 := by
        simp [List.length_append]; omega
      omega
    next =>
      rw [List.mem_append] at hs
      rcases hs with h1 | h1
      · split at h1
        · simp at h1
        · rw [List.mem_singleton] at h1
          subst h1
          exact le_trans (pyStrip_length_le _) hc
      · exact ih piece (fun p hp' => hp p (List.mem_cons_of_mem _ hp'))
          (hp piece (List.mem_cons_self _ _)) s h1

theorem lastChars_length_le (overlap : Nat) (l : List Char) :
    (lastChars overlap l).length ≤ overlap := by
  unfold lastChars
  rw [List.length_drop]
  omega

theorem applyOverlap_mem_length (target overlap : Nat) :
    ∀ (segs : List (List Char)) (prevTail : List Char),
      (∀ s ∈ segs, s.length ≤ target) → prevTail.length ≤ overlap →
      ∀ s ∈ applyOverlap overlap prevTail segs, s.length ≤ target + overlap + 1 := by
  intro segs
  induction segs with
  | nil => intro prevTail _ _ s hs; simp [applyOverlap] at hs
  | cons seg rest ih =>
    intro prevTail hsegs hp s hmem
    rw [applyOverlap] at hmem
    rcases List.mem_cons.mp hmem with h | h
    · subst h
      split
      · exact le_trans (hsegs seg (List.mem_cons_self _ _)) (by omega)
      · refine le_trans (pyStrip_length_le _) ?_
        rw [List.length_append]
        have := hsegs seg (List.mem_cons_self _ _)
        simp only [List.length_cons]
        omega
    · exact ih (lastChars overlap seg) (fun t ht => hsegs t (List.mem_cons_of_mem _ ht))
        (lastChars_length_le overlap seg) s h

theorem basePieces_mem_length (target : Nat) (t p : List Char) (h : p ∈ basePieces target t) :
    p.length ≤ target := by
  unfold basePieces at h
  obtain ⟨para, _, hmem⟩ := List.exists_of_mem_flatMap h
  by_cases hle : para.length ≤ target
  · rw [if_pos hle, List.mem_singleton] at hmem
    subst hmem; exact hle
  · rw [if_neg hle] at hmem
    exact splitLong_mem_length target para p hmem

theorem pyOrList_mem (xs ys : List (List Char)) (s : List Char) (h : s ∈ pyOrList xs ys) :
    s ∈ xs ∨ s ∈ ys := by
  unfold pyOrList at h
  split at h
  · exact Or.inr h
  · exact Or.inl h

theorem baseSegments_mem_length (target : Nat) (t s : List Char)
    (h : s ∈ baseSegments target t) : s.length ≤ target := by
  unfold baseSegments at h
  rcases pyOrList_mem _ _ s h with h1 | h1
  · refine assemble_mem_length target _ [] ?_ (by simp) s h1
    intro p hp
    rcases pyOrList_mem _ _ p hp with h2 | h2
    · exact basePieces_mem_length target t p h2
    · exact splitLong_mem_length target t p h2
  · exact splitLong_mem_length target t s h1

theorem chunkTextCore_mem_length (text : List Char) (target overlap : Nat) :
    ∀ s ∈ chunkTextCore text target overlap, s.length ≤ target + overlap + 1 := by
  intro s hs
  unfold chunkTextCore at hs
  split at hs
  · simp at hs
  · split at hs
    · exact applyOverlap_mem_length target overlap _ []
        (fun t' ht' => baseSegments_mem_length target _ t' ht') (by simp) s hs
    · exact le_trans (baseSegments_mem_length target _ s hs) (by omega)

/-- C7: every chunk produced by the chunker with `target_tokens = 800` and
`overlap_tokens = 120` (hence `target_chars = 3200`, `overlap_chars = 480`)
has `len(text) ≤ target_chars + overlap_chars + 1 = 3681`. -/
theorem chunk_size_bound (units : List TextUnit) (c : Chunk)
    (h : c ∈ chunk_text_units units) : c.text.length ≤ 3200 + 480 + 1 := by
  unfold chunk_text_units at h
  obtain ⟨unit, _, hmem⟩ := List.exists_of_mem_flatMap h
  simp only [List.mem_map] at hmem
  obtain ⟨⟨idx, seg⟩, hzip, hc⟩ := hmem
  have hseg := (List.of_mem_zip hzip).2
  have hbound := chunkTextCore_mem_length unit.text (800 * 4) (120 * 4) seg hseg
  have : c.text = seg := by rw [← hc]
  rw [this]
  simpa using hbound

/-- Witness for C7 at a concrete input. -/
theorem chunk_size_bound_witness :
    chunkWitnessChunk ∈ chunk_text_units [chunkWitnessUnit] ∧
      chunkWitnessChunk.text.length ≤ 3200 + 480 + 1 :=
  ⟨by decide, chunk_size_bound [chunkWitnessUnit] chunkWitnessChunk (by decide)⟩

theorem lookup_assocSet (k : String) (v : PVal) (m : List (String × PVal)) (name : String) :
    lookupProp (assocSet k v m) name = if name = k then some v else lookupProp m name := by
  induction m with
  | nil =>
    by_cases h : name = k
    · subst h; simp [assocSet, lookupProp]
    · have h' : ¬k = name := fun hh => h hh.symm
      simp [assocSet, lookupProp, h, h']
  | cons kv rest ih =>
    obtain ⟨k', v'⟩ := kv
    by_cases hk : k' = k
    · subst hk
      by_cases h : name = k'
      · subst h; simp [assocSet, lookupProp]
      · have h' : ¬k' = name := fun hh => h hh.symm
        simp [assocSet, lookupProp, h, h']
    · by_cases h : k' = name
      · subst h
        rw [show assocSet k v ((k', v') :: rest) = (k', v') :: assocSet k v rest by
              rw [assocSet, if_neg hk]]
        rw [if_neg hk, lookupProp, lookupProp, if_pos rfl, if_pos rfl]
      · simp [assocSet, lookupProp, hk, h, ih]

theorem optOr_none (b : Option PVal) : optOr none b = b := rfl

theorem optOr_some (v : PVal) (b : Option PVal) : optOr (some v) b = some v := rfl

theorem optOr_none_right (a : Option PVal) : optOr a none = a := by
  cases a <;> rfl

theorem optOr_assoc (a b c : Option PVal) : optOr (optOr a b) c = optOr a (optOr b c) := by
  cases a <;> rfl

theorem optOr_eq_none (a b : Option PVal) (h : optOr a b = none) : a = none ∧ b = none := by
  cases a with
  | none => exact ⟨rfl, h⟩
  | some v => exact absurd h (by rw [optOr_some]; simp)

theorem lookup_dictUpdate (items : List (String × PVal)) :
    ∀ (m : List (String × PVal)) (name : String),
      lookupProp (dictUpdate m items) name = optOr (lastAssoc items name) (lookupProp m name) := by
  induction items with
  | nil => intro m name; rfl
  | cons kv rest ih =>
    intro m name
    obtain ⟨k, v⟩ := kv
    have hstep : dictUpdate m ((k, v) :: rest) = dictUpdate (assocSet k v m) rest := rfl
    rw [hstep, ih, lastAssoc, lookup_assocSet]
    rcases hval : lastAssoc rest name with _ | w
    · rw [optOr_none, optOr_none]
      by_cases h : k = name
      · subst h; rw [if_pos rfl, if_pos rfl, optOr_some]
      · have h' : ¬name = k := fun hh => h hh.symm
        rw [if_neg h, if_neg h', optOr_none]
    · rw [optOr_some, optOr_some, optOr_some]

theorem lastAssoc_none_of_not_mem (l : List (String × PVal)) (name : String)
    (h : ∀ kv ∈ l, kv.1 ≠ name) : lastAssoc l name = none := by
  induction l with
  | nil => rfl
  | cons kv rest ih =>
    obtain ⟨k, v⟩ := kv
    have hk : k ≠ name := h (k, v) (List.mem_cons_self _ _)
    have hr := ih (fun kv hkv => h kv (List.mem_cons_of_mem _ hkv))
    rw [lastAssoc, hr, optOr_none, if_neg hk]

theorem lookupProp_none_of_not_mem (l : List (String × PVal)) (name : String)
    (h : ∀ kv ∈ l, kv.1 ≠ name) : lookupProp l name = none := by
  induction l with
  | nil => rfl
  | cons kv rest ih =>
    obtain ⟨k, v⟩ := kv
    have hk : k ≠ name := h (k, v) (List.mem_cons_self _ _)
    have hr := ih (fun kv hkv => h kv (List.mem_cons_of_mem _ hkv))
    rw [lookupProp, if_neg hk, hr]

theorem filterNonNull_cons (k : String) (v : PVal) (rest : List (String × PVal)) :
    filterNonNull ((k, v) :: rest) =
      if v = PVal.null then filterNonNull rest else (k, v) :: filterNonNull rest := by
  by_cases hv : v = PVal.null <;> simp [filterNonNull, List.filter_cons, hv]

theorem nonNullAt_cons (k : String) (v : PVal) (rest : List (String × PVal)) (name : String) :
    nonNullAt ((k, v) :: rest) name =
      if k = name then (if v = PVal.null then none else some v) else nonNullAt rest name := by
  by_cases h : k = name
  · subst h
    rw [if_pos rfl]
    simp [nonNullAt, lookupProp]
  · rw [if_neg h]
    simp [nonNullAt, lookupProp, h]

theorem lastAssoc_filterNonNull (props : List (String × PVal)) (name : String)
    (hnd : (props.map Prod.fst).Nodup) :
    lastAssoc (filterNonNull props) name = nonNullAt props name := by
  induction props with
  | nil => rfl
  | cons kv rest ih =>
    obtain ⟨k, v⟩ := kv
    rw [List.map_cons, List.nodup_cons] at hnd
    obtain ⟨hknotin, hndrest⟩ := hnd
    have ihr := ih hndrest
    have hknotin' : ∀ kv ∈ rest, kv.1 ≠ k := by
      intro kv hkv hkeq
      exact hknotin (by rw [List.mem_map]; exact ⟨kv, hkv, hkeq⟩)
    rw [filterNonNull_cons, nonNullAt_cons]
    by_cases hname : k = name
    · subst hname
      rw [if_pos rfl]
      have hrestf : lastAssoc (filterNonNull rest) k = none :=
        lastAssoc_none_of_not_mem _ _ (fun kv hkv => hknotin' kv (List.mem_of_mem_filter hkv))
      have hrest : nonNullAt rest k = none := by
        rw [nonNullAt, lookupProp_none_of_not_mem rest k hknotin']
      by_cases hv : v = PVal.null
      · rw [if_pos hv, if_pos hv, ihr, hrest]
      · rw [if_neg hv, if_neg hv, lastAssoc, hrestf, optOr_none, if_pos rfl]
    · rw [if_neg hname]
      by_cases hv : v = PVal.null
      · rw [if_pos hv, ihr]
      · rw [if_neg hv, lastAssoc, if_neg hname, optOr_none_right, ihr]

theorem nonNullAt_lookup_none (props : List (String × PVal)) (name : String)
    (h : lookupProp props name = none) : nonNullAt props name = none := by
  rw [nonNullAt, h]

theorem nonNullAt_lookup_some (props : List (String × PVal)) (name : String) (u : PVal)
    (h : lookupProp props name = some u) :
    nonNullAt props name = if u = PVal.null then none else some u := by
  rw [nonNullAt, h]

theorem lastNonNull_ne_null (l : List GraphNode) (name : String) (v : PVal)
    (h : lastNonNull l name = some v) : v ≠ PVal.null := by
  induction l with
  | nil => simp [lastNonNull] at h
  | cons n rest ih =>
    rw [lastNonNull] at h
    rcases hr : lastNonNull rest name with _ | w
    · rw [hr, optOr_none] at h
      rcases hl : lookupProp n.properties name with _ | u
      · rw [nonNullAt_lookup_none _ _ hl] at h; cases h
      · rw [nonNullAt_lookup_some _ _ _ hl] at h
        by_cases hu : u = PVal.null
        · rw [if_pos hu] at h; cases h
        · rw [if_neg hu] at h
          cases h; exact hu
    · rw [hr, optOr_some] at h
      cases h; exact ih hr

theorem mergedProps_lookup (rest : List GraphNode) :
    ∀ (init : List (String × PVal)) (name : String),
      (∀ n ∈ rest, (n.properties.map Prod.fst).Nodup) →
      lookupProp (mergedProps init rest) name =
        optOr (lastNonNull rest name) (lookupProp init name) := by
  induction rest with
  | nil => intro init name _; rfl
  | cons n rest ih =>
    intro init name hnd
    have hstep : mergedProps init (n :: rest) =
        mergedProps (dictUpdate init (filterNonNull n.properties)) rest := rfl
    rw [hstep, ih _ name (fun n' hn' => hnd n' (List.mem_cons_of_mem _ hn')),
      lookup_dictUpdate,
      lastAssoc_filterNonNull n.properties name (hnd n (List.mem_cons_self _ _)),
      lastNonNull, optOr_assoc]

theorem mergeNodes_single_key (k : NodeKey) :
    ∀ (rest : List GraphNode) (m : GraphNode),
      (∀ n ∈ rest, n.nodeKey = k) →
      mergeNodes [(k, m)] rest =
        [(k, { m with properties := mergedProps m.properties rest })] := by
  intro rest
  induction rest with
  | nil => intro m _; simp [mergeNodes, mergedProps]
  | cons n rest ih =>
    intro m hk
    have hkey : n.nodeKey = k := hk n (List.mem_cons_self _ _)
    have hstep : mergeNodes [(k, m)] (n :: rest) = mergeNodes (mergeOneNode [(k, m)] n) rest := rfl
    have hone : mergeOneNode [(k, m)] n =
        [(k, { m with properties := dictUpdate m.properties (filterNonNull n.properties) })] := by
      simp [mergeOneNode, containsNodeKey, hkey, updateNodeAt]
    rw [hstep, hone, ih _ (fun n' hn' => hk n' (List.mem_cons_of_mem _ hn'))]
    simp [mergedProps, List.foldl_cons]

/-- C9: merging a sequence of `GraphNode`s with equal `NodeKey` through the
pipeline accumulator `_merge_nodes` yields a property map in which the value
of each property name is the last non-null value assigned by any occurrence
(so every non-null property appears, later non-null values overwrite earlier
ones), while names never given a non-null value keep the entry of the first occurrence (a later null never overwrites). -/
theorem merge_nodes_semantics (l : List GraphNode) (k : NodeKey) (hne : l ≠ [])
    (hk : ∀ n ∈ l, n.nodeKey = k)
    (hnd : ∀ n ∈ l, (n.properties.map Prod.fst).Nodup) :
    ∃ m, lookupNode (mergeNodes [] l) k = some m ∧
      (∀ name v, lastNonNull l name = some v →
        lookupProp m.properties name = some v ∧ v ≠ PVal.null) ∧
      (∀ name, lastNonNull l name = none →
        lookupProp m.properties name = lookupProp (l.head hne).properties name) := by
  match l, hne with
  | n0 :: rest, _ =>
    have hk0 : n0.nodeKey = k := hk n0 (List.mem_cons_self _ _)
    have hndrest : ∀ n ∈ rest, (n.properties.map Prod.fst).Nodup :=
      fun n' hn' => hnd n' (List.mem_cons_of_mem _ hn')
    have hstart : mergeNodes [] (n0 :: rest) = mergeNodes [(k, n0)] rest := by
      have h1 : mergeOneNode [] n0 = [(k, n0)] := by
        simp [mergeOneNode, containsNodeKey, hk0]
      show mergeNodes (mergeOneNode [] n0) rest = _
      rw [h1]
    refine ⟨{ n0 with properties := mergedProps n0.properties rest }, ?_, ?_, ?_⟩
    · rw [hstart, mergeNodes_single_key k rest n0 (fun n' hn' => hk n' (List.mem_cons_of_mem _ hn'))]
      simp [lookupNode]
    · intro name v hlast
      refine ⟨?_, lastNonNull_ne_null _ _ _ hlast⟩
      show lookupProp (mergedProps n0.properties rest) name = some v
      rw [mergedProps_lookup rest n0.properties name hndrest]
      rw [lastNonNull] at hlast
      rcases hr : lastNonNull rest name with _ | w
      · rw [hr, optOr_none] at hlast
        rw [optOr_none]
        rcases hl : lookupProp n0.properties name with _ | u
        · rw [nonNullAt_lookup_none _ _ hl] at hlast; cases hlast
        · rw [nonNullAt_lookup_some _ _ _ hl] at hlast
          by_cases hu : u = PVal.null
          · rw [if_pos hu] at hlast; cases hlast
          · rw [if_neg hu] at hlast
            exact hlast
      · rw [hr, optOr_some] at hlast
        rw [optOr_some]; exact hlast
    · intro name hlast
      show lookupProp (mergedProps n0.properties rest) name = _
      rw [mergedProps_lookup rest n0.properties name hndrest]
      rw [lastNonNull] at hlast
      obtain ⟨hr, _⟩ := optOr_eq_none _ _ hlast
      rw [hr, optOr_none]
      rfl

/-- Witness for C9: two occurrences of one key; the later non-null `b`
overwrites, the later null does not overwrite `a`, and `c` from the first
occurrence survives. -/
theorem merge_nodes_semantics_witness :
    ∃ m, lookupNode (mergeNodes []
        [ { label := "Object", key := [("qualified_name", "Catalogs.X")],
            properties := [("a", PVal.str "old"), ("b", PVal.str "b0"), ("c", PVal.str "keep")] },
          { label := "Object", key := [("qualified_name", "Catalogs.X")],
            properties := [("a", PVal.null), ("b", PVal.str "b1")] } ])
        { label := "Object", key := [("qualified_name", "Catalogs.X")] } = some m ∧
      (∀ name v, lastNonNull
          [ { label := "Object", key := [("qualified_name", "Catalogs.X")],
              properties := [("a", PVal.str "old"), ("b", PVal.str "b0"), ("c", PVal.str "keep")] },
            { label := "Object", key := [("qualified_name", "Catalogs.X")],
              properties := [("a", PVal.null), ("b", PVal.str "b1")] } ] name = some v →
        lookupProp m.properties name = some v ∧ v ≠ PVal.null) ∧
      (∀ name, lastNonNull
          [ { label := "Object", key := [("qualified_name", "Catalogs.X")],
              properties := [("a", PVal.str "old"), ("b", PVal.str "b0"), ("c", PVal.str "keep")] },
            { label := "Object", key := [("qualified_name", "Catalogs.X")],
              properties := [("a", PVal.null), ("b", PVal.str "b1")] } ] name = none →
        lookupProp m.properties name =
          lookupProp [("a", PVal.str "old"), ("b", PVal.str "b0"), ("c", PVal.str "keep")] name) :=
  merge_nodes_semantics _ _ (by decide) (by decide) (by decide)

theorem validate_single_edge (s : Schema) (e : GraphEdge) :
    validate s { edges := [e] } =
      match validateEdge s e with
      | Except.ok () => Except.ok ()
      | Except.error err => Except.error err := by
  cases h : validateEdge s e with
  | ok u => cases u; simp [validate, firstError, h]
  | error err => simp [validate, firstError, h]

/-- C5 counterexample: an edge whose start endpoint is missing but whose
relationship type is unknown to the ontology passes `SchemaValidator.validate`
when `additional_relationship_types` is set (the early `return` in
`_validate_edge` skips the endpoint check), contradicting the claim that a
missing endpoint always fails regardless of the type and of the flag. -/
theorem validate_missing_endpoint_can_pass :
    c5Edge.start = none ∧
    c5Edge.type ∉ c5Schema.relationshipTypes ∧
    c5Schema.additionalRelationshipTypes = true ∧
    validate c5Schema { edges := [c5Edge] } = Except.ok () := by
  refine ⟨rfl, by decide, rfl, ?_⟩
  rfl

/-- C5 (amended): for an edge with a missing endpoint, `validate` succeeds
exactly when the relationship type is unknown to the ontology and
`additional_relationship_types` is set; with a known type it always raises
for the missing endpoints, and with an unknown type and the flag clear it
raises for the unknown type. -/
theorem validate_missing_endpoint_iff (s : Schema) (e : GraphEdge)
    (hmiss : e.start = none ∨ e.«end» = none) :
    validate s { edges := [e] } = Except.ok () ↔
      (e.type ∉ s.relationshipTypes ∧ s.additionalRelationshipTypes = true) := by
  have hiso : (e.start.isNone || e.«end».isNone) = true := by
    rcases hmiss with h | h <;> simp [h]
  rw [validate_single_edge]
  by_cases hmem : e.type ∈ s.relationshipTypes
  · have hne : ¬e.type ∉ s.relationshipTypes := not_not_intro hmem
    rw [validateEdge, if_neg hne, if_pos hiso]
    simp [hmem]
  · rw [validateEdge, if_pos hmem]
    by_cases hflag : s.additionalRelationshipTypes
    · simp [hmem, hflag]
    · simp [hmem, hflag]

/-- Witness for the amended C5 theorem at a concrete edge. -/
theorem validate_missing_endpoint_iff_witness :
    (c5Edge.start = none ∨ c5Edge.«end» = none) ∧
    (validate c5Schema { edges := [c5Edge] } = Except.ok () ↔
      (c5Edge.type ∉ c5Schema.relationshipTypes ∧
        c5Schema.additionalRelationshipTypes = true)) :=
  ⟨Or.inl rfl, validate_missing_endpoint_iff c5Schema c5Edge (Or.inl rfl)⟩

/-- C3: the record persisted by `JobStore.save` serializes exactly the six
declared `JobStats` dataclass fields.  The attributes the claim additionally
requires — `phase`, `embedded_chunks`, `graph_nodes_total`,
`graph_nodes_written`, `graph_edges_total`, `graph_edges_written`,
`session_segments`, `session_batches`, `session_total_files`, set dynamically
on the stats instance by `pipeline.py` and `main.py` — are dropped by
`dataclasses.asdict` and never reach the persisted record. -/
theorem save_stats_serialization_fields (now : Nat) (store : StoreState) (st : JobState) :
    ∃ prim, (jobStoreSave now store st).1.log = store.log ++ [prim] ∧
      prim.stats.map Prod.fst =
        ["total_files", "processed_files", "nodes", "edges", "vector_chunks", "duration_sec"] ∧
      "phase" ∉ prim.stats.map Prod.fst ∧
      "embedded_chunks" ∉ prim.stats.map Prod.fst ∧
      "graph_nodes_total" ∉ prim.stats.map Prod.fst ∧
      "graph_nodes_written" ∉ prim.stats.map Prod.fst ∧
      "graph_edges_total" ∉ prim.stats.map Prod.fst ∧
      "graph_edges_written" ∉ prim.stats.map Prod.fst ∧
      "session_segments" ∉ prim.stats.map Prod.fst ∧
      "session_batches" ∉ prim.stats.map Prod.fst ∧
      "session_total_files" ∉ prim.stats.map Prod.fst := by
  refine ⟨JobState.to_primitive { st with updated_at := now }, rfl, rfl,
    ?_, ?_, ?_, ?_, ?_, ?_, ?_, ?_, ?_⟩ <;> simp [JobState.to_primitive, statsAsdict]

theorem no_cr_in_normalized (l : List Char) : '\r' ∉ pyNormalizeNewlines l := by
  intro h
  rw [pyNormalizeNewlines, List.mem_map] at h
  obtain ⟨c, _, hc⟩ := h
  by_cases hcr : c = '\r'
  · rw [if_pos hcr] at hc
    exact absurd hc (by decide)
  · rw [if_neg hcr] at hc
    exact hcr hc

/-- C10: the decoding loop of `_read_file` always succeeds — `latin-1`, the
last entry of `ENCODINGS`, decodes every byte sequence — so the ignore-errors
UTF-8 fallback is unreachable, `_read_file` returns via the loop, and the
result has every `\r\n` and `\r` normalised to `\n` (no carriage return
remains). -/
theorem read_file_encoding_loop_total (bytes : List Byte) :
    (tryEncodings bytes).isSome ∧
    readFileFromBytes bytes = pyNormalizeNewlines ((tryEncodings bytes).getD []) ∧
    '\r' ∉ readFileFromBytes bytes := by
  have hlat : pyDecode PyEncoding.latin1 bytes = some (bytes.map (fun b => Char.ofNat b.val)) := rfl
  have hsome : (tryEncodings bytes).isSome := by
    rw [tryEncodings, ENCODINGS]
    cases h1 : pyDecode PyEncoding.utf8 bytes with
    | some t => simp [List.findSome?, h1]
    | none =>
      cases h2 : pyDecode PyEncoding.cp1251 bytes with
      | some t => simp [List.findSome?, h1, h2]
      | none =>
        cases h3 : pyDecode PyEncoding.windows1251 bytes with
        | some t => simp [List.findSome?, h1, h2, h3]
        | none =>
          cases h4 : pyDecode PyEncoding.utf16 bytes with
          | some t => simp [List.findSome?, h1, h2, h3, h4]
          | none => simp [List.findSome?, h1, h2, h3, h4, hlat]
  refine ⟨hsome, ?_, ?_⟩
  · cases hs : tryEncodings bytes with
    | none => rw [hs] at hsome; cases hsome
    | some t => simp [readFileFromBytes, hs]
  · cases hs : tryEncodings bytes with
    | none => rw [hs] at hsome; cases hsome
    | some t =>
      have : readFileFromBytes bytes = pyNormalizeNewlines t := by
        simp [readFileFromBytes, hs]
      rw [this]
      exact no_cr_in_normalized t

/-- **C6** (code bug).  On the Tiny Catalog input
`Catalogs/Contacts/ObjectModule.bsl` whose whole content is the one line
`Процедура Hello() Экспорт КонецПроцедуры`, extraction does not produce the
claimed Object/Module/Routine nodes, edges and a chunkable text unit: the
lone line is recognised as a routine declaration, and finalising the routine
calls `TextUnit(...)` without the required `locator` argument (the dataclass
field has no default), so CPython raises `TypeError` and `extract_document`
raises instead of returning — the fail-soft pipeline loop records the error,
no nodes or edges are merged, the cleared `_routine_bodies` map stays empty,
and chunking sees no text units, yielding 0 chunks rather than the claimed
1. -/
theorem tiny_catalog_raises_type_error :
    (extract_document [] c6doc).1 = Except.error TEXTUNIT_TYPE_ERROR ∧
    (extract_document [] c6doc).2 = [] ∧
    (runExtractChunk [] [c6doc]).1.2 = [] :=
  ⟨rfl, rfl, rfl⟩

theorem extract_document_fst_indep (b1 b2 : List (NodeKey × List Char)) (doc : LoadedDocument) :
    (extract_document b1 doc).1 = (extract_document b2 doc).1 := by
  unfold extract_document
  split
  · rfl
  · split
    · rfl
    · split
      · rfl
      · split
        · rfl
        · rfl

theorem extractFold_fst_indep (docs : List LoadedDocument) :
    ∀ (pre : List (Except String ExtractionResult)) (b1 b2 : List (NodeKey × List Char)),
      (docs.foldl extractStep (pre, b1)).1 = (docs.foldl extractStep (pre, b2)).1 := by
  induction docs with
  | nil => intro pre b1 b2; rfl
  | cons d rest ih =>
    intro pre b1 b2
    have e1 : extractStep (pre, b1) d =
        (pre ++ [(extract_document b2 d).1], (extract_document b1 d).2) := by
      show (pre ++ [(extract_document b1 d).1], (extract_document b1 d).2) = _
      rw [extract_document_fst_indep b1 b2 d]
    have e2 : extractStep (pre, b2) d =
        (pre ++ [(extract_document b2 d).1], (extract_document b2 d).2) := rfl
    rw [List.foldl_cons, List.foldl_cons, e1, e2]
    exact ih (pre ++ [(extract_document b2 d).1]) _ _

/-- C8: extraction followed by chunking is deterministic.  Running
`extract_document` over the same documents in the same order and then
`chunk_text_units`, twice in a row — the second run starting from whatever
the module-global `_routine_bodies` map holds after the first — yields
identical per-document outcomes (including the `TypeError` each `TextUnit`
construction raises), hence identical node keys, identical edge triples
`(start, type, end)` and identical chunk ids: `_extract_bsl` clears the
shared map on entry and no other extractor touches it, and `stable_guid` is
a pure function of its input. -/
theorem extract_chunk_deterministic (docs : List LoadedDocument)
    (bodies0 : List (NodeKey × List Char)) :
    outNodeKeys (runExtractChunk bodies0 docs).1.1 =
      outNodeKeys (runExtractChunk (runExtractChunk bodies0 docs).2 docs).1.1 ∧
    outEdgeTriples (runExtractChunk bodies0 docs).1.1 =
      outEdgeTriples (runExtractChunk (runExtractChunk bodies0 docs).2 docs).1.1 ∧
    outChunkIds (runExtractChunk bodies0 docs).1.2 =
      outChunkIds (runExtractChunk (runExtractChunk bodies0 docs).2 docs).1.2 := by
  have hres : (docs.foldl extractStep ([], bodies0)).1 =
      (docs.foldl extractStep ([], (runExtractChunk bodies0 docs).2)).1 :=
    extractFold_fst_indep docs [] _ _
  have h1 : (runExtractChunk bodies0 docs).1.1 =
      (runExtractChunk (runExtractChunk bodies0 docs).2 docs).1.1 := hres
  have h2 : (runExtractChunk bodies0 docs).1.2 =
      (runExtractChunk (runExtractChunk bodies0 docs).2 docs).1.2 := by
    show chunk_text_units ((docs.foldl extractStep ([], bodies0)).1.flatMap _) =
      chunk_text_units ((docs.foldl extractStep ([], (runExtractChunk bodies0 docs).2)).1.flatMap _)
    rw [hres]
  exact ⟨congrArg outNodeKeys h1, congrArg outEdgeTriples h1, congrArg outChunkIds h2⟩

theorem lookupPrim_assocSet_self (k : String) (v : JobStatePrim)
    (m : List (String × JobStatePrim)) :
    ((assocSetPrim k v m).find? (fun e => e.1 = k)).map Prod.snd = some v := by
  induction m with
  | nil => simp [assocSetPrim]
  | cons kv rest ih =>
    obtain ⟨k', v'⟩ := kv
    by_cases h : k' = k
    · subst h; simp [assocSetPrim]
    · simp [assocSetPrim, h, List.find?, ih]

theorem lookupPrim_assocSet_other (k k' : String) (v : JobStatePrim)
    (m : List (String × JobStatePrim)) (h : k' ≠ k) :
    ((assocSetPrim k v m).find? (fun e => e.1 = k')).map Prod.snd =
      (m.find? (fun e => e.1 = k')).map Prod.snd := by
  induction m with
  | nil =>
    have h2 : ¬k = k' := fun hh => h hh.symm
    simp [assocSetPrim, List.find?, h2]
  | cons kv rest ih =>
    obtain ⟨k2, v2⟩ := kv
    by_cases h2 : k2 = k
    · subst h2
      have h3 : ¬k2 = k' := fun hh => h hh.symm
      simp [assocSetPrim, List.find?, h3]
    · by_cases h3 : k2 = k'
      · subst h3; simp [assocSetPrim, h2, List.find?]
      · simp [assocSetPrim, h2, List.find?, h3, ih]

theorem jobStoreGet_save_self (now : Nat) (store : StoreState) (st : JobState) :
    jobStoreGet (jobStoreSave now store st).1 st.job_id =
      some (JobState.to_primitive { st with updated_at := now }) := by
  unfold jobStoreGet jobStoreSave
  exact lookupPrim_assocSet_self _ _ _

theorem jobStoreGet_save_other (now : Nat) (store : StoreState) (st : JobState)
    (jid : String) (h : jid ≠ st.job_id) :
    jobStoreGet (jobStoreSave now store st).1 jid = jobStoreGet store jid := by
  unfold jobStoreGet jobStoreSave
  exact lookupPrim_assocSet_other _ _ _ _ h

/-- The queue ids recorded in `queue_job_ids` cover the queue. -/
def queueIdsSub (acc : StoreState × List IndexJob × List String) : Prop :=
  ∀ j ∈ acc.2.1, j.job_id ∈ acc.2.2

theorem recoverStep_cases (W : String) (fs : String → Bool) (now : Nat)
    (acc : StoreState × List IndexJob × List String) (t : JobState) :
    recoverStep W fs now acc t = acc ∨
    recoverStep W fs now acc t =
      ( (jobStoreSave now acc.1
            { t with status := JobStatus.PENDING, started_at := none, finished_at := none }).1
      , acc.2.1 ++
          [{ job_id := t.job_id, collection := t.collection,
             raw_path := rawPathOf W t.collection t.job_id }]
      , acc.2.2 ++ [t.job_id] ) := by
  by_cases h1 : t.status ≠ JobStatus.PENDING ∧ t.status ≠ JobStatus.RUNNING
  · left
    unfold recoverStep
    rw [if_pos h1]
  · by_cases h2 : t.job_id ∈ acc.2.2
    · left
      unfold recoverStep
      rw [if_neg h1, if_pos h2]
    · by_cases h3 : fs (rawPathOf W t.collection t.job_id) = true
      · right
        unfold recoverStep
        rw [if_neg h1, if_neg h2]
        simp only [h3, Bool.not_true]
        rfl
      · left
        unfold recoverStep
        rw [if_neg h1, if_neg h2]
        have h4 : fs (rawPathOf W t.collection t.job_id) = false := by
          revert h3
          cases fs (rawPathOf W t.collection t.job_id) <;> simp
        simp only [h4, Bool.not_false]
        rfl

theorem recoverStep_foreign (W : String) (fs : String → Bool) (now : Nat)
    (acc : StoreState × List IndexJob × List String) (t : JobState) (jid : String)
    (h : t.job_id ≠ jid) :
    ((recoverStep W fs now acc t).2.1.filter (fun j => j.job_id = jid) =
      acc.2.1.filter (fun j => j.job_id = jid)) ∧
    jobStoreGet (recoverStep W fs now acc t).1 jid = jobStoreGet acc.1 jid ∧
    (jid ∈ (recoverStep W fs now acc t).2.2 ↔ jid ∈ acc.2.2) := by
  rcases recoverStep_cases W fs now acc t with hc | hc
  · rw [hc]; exact ⟨rfl, rfl, Iff.rfl⟩
  · rw [hc]
    refine ⟨?_, ?_, ?_⟩
    · simp [List.filter_append, h]
    · exact jobStoreGet_save_other now acc.1 _ jid h.symm
    · show jid ∈ acc.2.2 ++ [t.job_id] ↔ jid ∈ acc.2.2
      rw [List.mem_append, List.mem_singleton]
      constructor
      · rintro (hh | hh)
        · exact hh
        · exact absurd hh.symm h
      · exact Or.inl

theorem recoverStep_inv (W : String) (fs : String → Bool) (now : Nat)
    (acc : StoreState × List IndexJob × List String) (t : JobState)
    (h : queueIdsSub acc) : queueIdsSub (recoverStep W fs now acc t) := by
  rcases recoverStep_cases W fs now acc t with hc | hc
  · rw [hc]; exact h
  · rw [hc]
    intro j hj
    rcases List.mem_append.mp hj with h1 | h1
    · exact List.mem_append.mpr (Or.inl (h j h1))
    · rw [List.mem_singleton] at h1
      subst h1
      exact List.mem_append.mpr (Or.inr (by simp))

theorem recover_fold_foreign (W : String) (fs : String → Bool) (now : Nat) :
    ∀ (states : List JobState) (acc : StoreState × List IndexJob × List String) (jid : String),
      jid ∉ states.map JobState.job_id →
      ((states.foldl (recoverStep W fs now) acc).2.1.filter (fun j => j.job_id = jid) =
        acc.2.1.filter (fun j => j.job_id = jid)) ∧
      jobStoreGet (states.foldl (recoverStep W fs now) acc).1 jid = jobStoreGet acc.1 jid := by
  intro states
  induction states with
  | nil => intro acc jid _; exact ⟨rfl, rfl⟩
  | cons t rest ih =>
    intro acc jid hnot
    rw [List.map_cons, List.mem_cons] at hnot
    push_neg at hnot
    have hstep := recoverStep_foreign W fs now acc t jid (fun hh => hnot.1 hh.symm)
    rw [List.foldl_cons]
    have hr := ih (recoverStep W fs now acc t) jid hnot.2
    exact ⟨hr.1.trans hstep.1, hr.2.trans hstep.2.1⟩

theorem filter_empty_of_sub (acc : StoreState × List IndexJob × List String) (jid : String)
    (hinv : queueIdsSub acc) (hnot : jid ∉ acc.2.2) :
    acc.2.1.filter (fun j => j.job_id = jid) = [] := by
  rw [List.filter_eq_nil_iff]
  intro j hj hdec
  rw [decide_eq_true_eq] at hdec
  exact hnot (hdec ▸ hinv j hj)

theorem recover_fold_main (W : String) (fs : String → Bool) (now : Nat) :
    ∀ (states : List JobState) (acc : StoreState × List IndexJob × List String) (s : JobState),
      s ∈ states → (states.map JobState.job_id).Nodup →
      (s.status = JobStatus.PENDING ∨ s.status = JobStatus.RUNNING) →
      s.job_id ∉ acc.2.2 → queueIdsSub acc →
      (fs (rawPathOf W s.collection s.job_id) = true →
        ((states.foldl (recoverStep W fs now) acc).2.1.filter (fun j => j.job_id = s.job_id) =
          [{ job_id := s.job_id, collection := s.collection,
             raw_path := rawPathOf W s.collection s.job_id }]) ∧
        jobStoreGet (states.foldl (recoverStep W fs now) acc).1 s.job_id =
          some (JobState.to_primitive
            { s with
              status := JobStatus.PENDING
              started_at := none
              finished_at := none
              updated_at := now })) ∧
      (fs (rawPathOf W s.collection s.job_id) = false →
        (states.foldl (recoverStep W fs now) acc).2.1.filter (fun j => j.job_id = s.job_id) = []) := by
  intro states
  induction states with
  | nil => intro acc s hs; cases hs
  | cons t rest ih =>
    intro acc s hs hnd hstatus hnotin hinv
    rw [List.map_cons, List.nodup_cons] at hnd
    obtain ⟨htnot, hndrest⟩ := hnd
    rcases List.mem_cons.mp hs with hst | hsrest
    · subst hst
      have hempty : acc.2.1.filter (fun j => j.job_id = s.job_id) = [] :=
        filter_empty_of_sub acc s.job_id hinv hnotin
      have hsrestid : s.job_id ∉ rest.map JobState.job_id := htnot
      have hstatuscond : ¬(s.status ≠ JobStatus.PENDING ∧ s.status ≠ JobStatus.RUNNING) := by
        rcases hstatus with h | h <;> simp [h]
      constructor
      · intro hraw
        have hstep : recoverStep W fs now acc s =
            ( (jobStoreSave now acc.1
                  { s with status := JobStatus.PENDING, started_at := none, finished_at := none }).1
            , acc.2.1 ++
                [{ job_id := s.job_id, collection := s.collection,
                   raw_path := rawPathOf W s.collection s.job_id }]
            , acc.2.2 ++ [s.job_id] ) := by
          unfold recoverStep
          rw [if_neg hstatuscond, if_neg hnotin]
          simp only [hraw, Bool.not_true]
          rfl
        rw [List.foldl_cons]
        have hf := recover_fold_foreign W fs now rest (recoverStep W fs now acc s) s.job_id hsrestid
        constructor
        · rw [hf.1, hstep]
          simp only [List.filter_append, hempty]
          simp
        · rw [hf.2, hstep]
          exact jobStoreGet_save_self now acc.1 _
      · intro hraw
        have hstep : recoverStep W fs now acc s = acc := by
          unfold recoverStep
          rw [if_neg hstatuscond, if_neg hnotin]
          simp only [hraw, Bool.not_false]
          rfl
        rw [List.foldl_cons, hstep]
        have hf := recover_fold_foreign W fs now rest acc s.job_id hsrestid
        rw [hf.1]
        exact hempty
    · have hts : t.job_id ≠ s.job_id := by
        intro hh
        exact htnot (hh ▸ List.mem_map_of_mem JobState.job_id hsrest)
      have hstep := recoverStep_foreign W fs now acc t s.job_id hts
      have hnotin' : s.job_id ∉ (recoverStep W fs now acc t).2.2 :=
        fun hh => hnotin (hstep.2.2.mp hh)
      have hinv' := recoverStep_inv W fs now acc t hinv
      have := ih (recoverStep W fs now acc t) s hsrest hndrest hstatus hnotin' hinv'
      rw [List.foldl_cons]
      exact ⟨fun hraw => this.1 hraw, fun hraw => this.2 hraw⟩

/-- C1: at worker startup, every job-store state with status PENDING or
RUNNING whose job id is not already queued and whose raw directory exists is
reset to PENDING with `started_at` and `finished_at` cleared, saved, and
enqueued exactly once (the resulting queue holds exactly one `IndexJob` for
that id, carrying the raw path); a state whose raw directory is gone is left
unqueued.  `JobQueue.list_job_ids` and `JobStore.iter_states` are modelled
from the spec (their definitions are absent from `src/`); the loop itself
follows `worker.py`. -/
theorem worker_recovery (W : String) (fs : String → Bool) (now : Nat)
    (states : List JobState) (store0 : StoreState) (queue0 : List IndexJob)
    (hnd : (states.map JobState.job_id).Nodup)
    (s : JobState) (hs : s ∈ states)
    (hstatus : s.status = JobStatus.PENDING ∨ s.status = JobStatus.RUNNING)
    (hnotq : s.job_id ∉ queue0.map IndexJob.job_id) :
    (fs (rawPathOf W s.collection s.job_id) = true →
      ((recoverIncompleteJobs W fs now states store0 queue0).2.1.filter
          (fun j => j.job_id = s.job_id) =
        [{ job_id := s.job_id, collection := s.collection
         , raw_path := rawPathOf W s.collection s.job_id }]) ∧
      jobStoreGet (recoverIncompleteJobs W fs now states store0 queue0).1 s.job_id =
        some (JobState.to_primitive
          { s with
            status := JobStatus.PENDING
            started_at := none
            finished_at := none
            updated_at := now })) ∧
    (fs (rawPathOf W s.collection s.job_id) = false →
      (recoverIncompleteJobs W fs now states store0 queue0).2.1.filter
        (fun j => j.job_id = s.job_id) = []) := by
  have hinv : queueIdsSub (store0, queue0, listJobIds queue0) := by
    intro j hj
    exact List.mem_map_of_mem IndexJob.job_id hj
  exact recover_fold_main W fs now states (store0, queue0, listJobIds queue0) s hs hnd
    hstatus hnotq hinv

/-- Witness for C1 at a concrete RUNNING state with an existing raw dir. -/
theorem worker_recovery_witness :
    ([c1state].map JobState.job_id).Nodup ∧
    c1state ∈ [c1state] ∧
    (c1state.status = JobStatus.PENDING ∨ c1state.status = JobStatus.RUNNING) ∧
    c1state.job_id ∉ ([] : List IndexJob).map IndexJob.job_id ∧
    (((fun _ => true) (rawPathOf "/ws" c1state.collection c1state.job_id) = true →
      ((recoverIncompleteJobs "/ws" (fun _ => true) 7 [c1state] {} []).2.1.filter
          (fun j => j.job_id = c1state.job_id) =
        [{ job_id := c1state.job_id, collection := c1state.collection
         , raw_path := rawPathOf "/ws" c1state.collection c1state.job_id }]) ∧
      jobStoreGet (recoverIncompleteJobs "/ws" (fun _ => true) 7 [c1state] {} []).1 c1state.job_id =
        some (JobState.to_primitive
          { c1state with
            status := JobStatus.PENDING
            started_at := none
            finished_at := none
            updated_at := 7 })) ∧
    ((fun _ => true) (rawPathOf "/ws" c1state.collection c1state.job_id) = false →
      (recoverIncompleteJobs "/ws" (fun _ => true) 7 [c1state] {} []).2.1.filter
        (fun j => j.job_id = c1state.job_id) = [])) :=
  ⟨by decide, by decide, Or.inr rfl, by decide,
    worker_recovery "/ws" (fun _ => true) 7 [c1state] {} [] (by decide) c1state (by decide)
      (Or.inr rfl) (by decide)⟩

/-- C2: the upload-session round trip — init, a part of 1 file, a part of 2
files, complete — succeeds, and yields session meta closed with
`segments = [1, 2]` and `total_files = 3`, a persisted `JobState` whose
serialized stats carry `total_files = 3`, exactly one enqueued `IndexJob`
for the minted job id (pointing at the raw directory), and the session
directory removed.  The `upload_session_batch_size` / `upload_session_dirname`
settings are modelled from the spec, being absent from `config.py` under
`src/`. -/
theorem upload_round_trip :
    c2Run.toOption.map (fun r =>
      ( r.2.2.segments, r.2.2.status, r.2.2.total_files
      , r.1.sessionExists
      , r.1.queue
      , (jobStoreGet r.1.store r.2.1).map JobStatePrim.stats )) =
    some
      ( [1, 2], "closed", 3
      , false
      , [{ job_id := "feedfacefeedfacefeedfacefeedface", collection := "col"
         , raw_path := "/ws/col/feedfacefeedfacefeedfacefeedface/raw" }]
      , some
          [ ("total_files", JVal.num 3), ("processed_files", JVal.num 0)
          , ("nodes", JVal.num 0), ("edges", JVal.num 0)
          , ("vector_chunks", JVal.num 0), ("duration_sec", JVal.num 0) ] ) := rfl

/-- A fold step applied along `scanl` links consecutive entries by `R`
whenever every function in the list satisfies `R x (f x)`. -/
theorem chainScanl {A : Type} (R : A → A → Prop) :
    ∀ (l : List (A → A)) (init : A), (∀ f ∈ l, ∀ x, R x (f x)) →
      List.Chain' R (List.scanl (fun st f => f st) init l) := by
  intro l
  induction l with
  | nil =>
    intro init _
    rw [List.scanl_nil]
    exact List.chain'_singleton init
  | cons f rest ih =>
    intro init h
    rw [List.scanl_cons]
    cases rest with
    | nil =>
      rw [List.scanl_nil]
      exact List.chain'_pair.mpr (h f (List.mem_cons_self f _) init)
    | cons g gs =>
      rw [List.scanl_cons]
      refine List.Chain'.cons (h f (List.mem_cons_self f _) init) ?_
      have h2 := ih (f init) (fun q hq x => h q (List.mem_cons_of_mem f hq) x)
      rw [List.scanl_cons] at h2
      exact h2

/-- Every mutation of one pipeline run leaves `processed_files` unchanged or
increments it. -/
theorem pipelineMutations_mono (pz : Bool) (env : PipeEnv) :
    ∀ f ∈ pipelineMutations pz env, ∀ st : JobState,
      st.stats.processed_files ≤ (f st).stats.processed_files := by
  intro f hf st
  unfold pipelineMutations at hf
  rcases List.mem_append.mp hf with h | h
  · rcases List.mem_append.mp h with h | h
    · rcases List.mem_append.mp h with h | h
      · rcases List.mem_append.mp h with h | h
        · cases pz with
          | false =>
            rw [if_neg (by decide)] at h
            exact absurd h (List.not_mem_nil f)
          | true =>
            rw [if_pos rfl, List.mem_singleton] at h
            subst h
            exact Nat.le.refl
        · have he := List.eq_of_mem_replicate h
          subst he
          exact Nat.le_succ _
      · rw [List.mem_singleton] at h
        subst h
        exact Nat.le.refl
    · rcases List.mem_map.mp h with ⟨b, _, hb⟩
      subst hb
      exact Nat.le.refl
  · simp only [List.mem_cons, List.not_mem_nil, or_false] at h
    rcases h with rfl | rfl | rfl | rfl | rfl | rfl <;> exact Nat.le.refl

/-- `processed_files` is non-decreasing along the saves of a successful run. -/
theorem chain_fullStates (prior : Option JobState) (jobId collection : String) (env : PipeEnv) :
    List.Chain' (fun a b : JobState => a.stats.processed_files ≤ b.stats.processed_files)
      (pipelineFullStates prior jobId collection env) :=
  chainScanl _ _ _ (pipelineMutations_mono _ env)

/-- The error path does not change the stats. -/
theorem pipelineErrorState_stats (st : JobState) : (pipelineErrorState st).stats = st.stats := rfl

/-- `processed_files` is non-decreasing along the saves of a run under any
outcome: a crash keeps a prefix, and the error save copies the counters. -/
theorem chain_runStates (prior : Option JobState) (jobId collection : String)
    (env : PipeEnv) (oc : RunOutcome) :
    List.Chain' (fun a b : JobState => a.stats.processed_files ≤ b.stats.processed_files)
      (pipelineRunStates prior jobId collection env oc) := by
  cases oc with
  | completed =>
    exact chain_fullStates prior jobId collection env
  | crashed k =>
    exact List.Chain'.prefix (chain_fullStates prior jobId collection env) ( List.take_prefix _ _)
  | failed k =>
    simp only [pipelineRunStates]
    refine List.chain'_append.mpr
      ⟨ List.Chain'.prefix (chain_fullStates prior jobId collection env) ( List.take_prefix _ _)
      , List.chain'_singleton _, ?_⟩
    intro x hx y hy
    have hye : y = pipelineErrorState
        ((List.take (k + 1) (pipelineFullStates prior jobId collection env)).getLastD
          (pipelineInitState prior jobId collection)) := by simpa using hy.symm
    have hxe : (List.take (k + 1) (pipelineFullStates prior jobId collection env)).getLastD
        (pipelineInitState prior jobId collection) = x := by
      rw [List.getLastD_eq_getLast?]
      rw [show (List.take (k + 1) (pipelineFullStates prior jobId collection env)).getLast?
        = some x from hx]
      rfl
    rw [hye, hxe, pipelineErrorState_stats]

/-- Serialization keeps `processed_files` and the stamped `updated_at`. -/
theorem primProcessed_toPrim (st : JobState) (t : Nat) :
    primProcessed (JobState.to_primitive { st with updated_at := t }) = st.stats.processed_files := rfl

/-- The persisted trajectory of a save chain is a chain: `processed_files`
non-decreasing and `updated_at` strictly increasing. -/
theorem chain_persistAux :
    ∀ (l : List JobState) (t : Nat),
      List.Chain' (fun a b : JobState => a.stats.processed_files ≤ b.stats.processed_files) l →
      List.Chain' (fun a b : JobStatePrim =>
          primProcessed a ≤ primProcessed b ∧ a.updated_at < b.updated_at)
        (persistAux t l) := by
  intro l
  induction l with
  | nil =>
    intro t _
    simp [persistAux]
  | cons a rest ih =>
    intro t h
    cases rest with
    | nil => simp [persistAux]
    | cons b rest2 =>
      have hab := (List.chain'_cons.mp h).1
      have htail := (List.chain'_cons.mp h).2
      show List.Chain' _
        (JobState.to_primitive { a with updated_at := t }
          :: JobState.to_primitive { b with updated_at := t + 1 } :: persistAux (t + 2) rest2)
      refine List.chain'_cons.mpr ⟨⟨?_, ?_⟩, ?_⟩
      · rw [primProcessed_toPrim, primProcessed_toPrim]
        exact hab
      · exact Nat.lt_succ_self t
      · exact ih (t + 1) htail

/-- Every record of a persisted trajectory serializes some `JobStatsObj`. -/
theorem persistAux_stats_shape :
    ∀ (l : List JobState) (t : Nat) (p : JobStatePrim), p ∈ persistAux t l →
      ∃ s : JobStatsObj, p.stats = statsAsdict s := by
  intro l
  induction l with
  | nil =>
    intro t p hp
    simp [persistAux] at hp
  | cons a rest ih =>
    intro t p hp
    rw [show persistAux t (a :: rest)
      = JobState.to_primitive { a with updated_at := t } :: persistAux (t + 1) rest from rfl] at hp
    rcases List.mem_cons.mp hp with rfl | hp
    · exact ⟨a.stats, rfl⟩
    · exact ih (t + 1) p hp

/-- **C4** (amended).  Within a single invocation of `IndexingPipeline.run`
— completing normally, dying after any number of saves, or failing with an
unhandled exception — the persisted snapshot trajectory is monotone: the
serialized `processed_files` never decreases from one save to the next and
`updated_at` (stamped by `JobStore.save` from a strictly increasing clock)
strictly increases; moreover no persisted snapshot carries the keys
`embedded_chunks`, `graph_nodes_written` or `graph_edges_written` at all
(`dataclasses.asdict` serializes only the six declared fields), so the
claimed non-decrease of those counters holds only vacuously over persisted
snapshots.  Across runs the claim fails (see the counterexample): `run`
replaces `stats` by a fresh `JobStats` preserving only `total_files`,
so `processed_files` drops back to 0 on a re-run after recovery. -/
theorem pipeline_run_trajectory_monotone (prior : Option JobState) (jobId collection : String)
    (env : PipeEnv) (oc : RunOutcome) (t0 : Nat) :
    List.Chain' (fun a b : JobStatePrim =>
        primProcessed a ≤ primProcessed b ∧ a.updated_at < b.updated_at)
      (persistTrajectory t0 (pipelineRunStates prior jobId collection env oc)) ∧
    ∀ p ∈ persistTrajectory t0 (pipelineRunStates prior jobId collection env oc),
      p.stats.find? (fun e => e.1 = "embedded_chunks") = none ∧
      p.stats.find? (fun e => e.1 = "graph_nodes_written") = none ∧
      p.stats.find? (fun e => e.1 = "graph_edges_written") = none := by
  constructor
  · exact chain_persistAux _ _ (chain_runStates prior jobId collection env oc)
  · intro p hp
    rcases persistAux_stats_shape _ _ p hp with ⟨s, hs⟩
    rw [hs]
    exact ⟨rfl, rfl, rfl⟩

/-- **C4** (counterexample to the claim as stated).  For job `j1`: a first
run over one document crashes right after the per-document save (persisted
`processed_files = 1` at snapshot 2 and in the recovery save at snapshot 3),
the worker recovery resets the state to PENDING, and the re-run begins by
resetting `stats` — its first save (snapshot 4) persists
`processed_files = 0`.  So across the trajectory of one `job_id` including
a re-run after recovery, `processed_files` decreases from one save to the
next, refuting the claim (while `updated_at` still strictly increases). -/
theorem pipeline_processed_decreases_after_recovery :
    ((c4Trajectory.get? 3).map primProcessed = some 1 ∧
     (c4Trajectory.get? 4).map primProcessed = some 0) ∧
    ((c4Trajectory.get? 3).map (fun p => p.job_id) = some "j1" ∧
     (c4Trajectory.get? 4).map (fun p => p.job_id) = some "j1") ∧
    ((c4Trajectory.get? 3).map (fun p => p.updated_at) = some 4 ∧
     (c4Trajectory.get? 4).map (fun p => p.updated_at) = some 5) := by
  decide

end GraphRag
